import Mathlib

/-!
# A verification development for the Gaby interpreter

This file gives a shallow embedding, in Lean 4, of the core of the Gaby
interpreter (a tree-walking interpreter for a small Spanish-keyword
scripting language written in Go), together with theorems about the
embedded definitions.

The embedding follows the Go sources:

* `internal/lexer/token.go` — token kinds and the keyword table;
* `internal/parser/parser.go` — the Pratt parser (modelled at token level:
  the parser consumes a list of tokens; the lexer itself is not embedded,
  only its token vocabulary and keyword table);
* the AST node definitions of the parser package;
* `internal/object/object.go` — runtime objects and environments;
* the evaluator package (`Eval` and its helpers).

Modelling conventions, used consistently below:

* Go interface values that may be `nil` are modelled as `Option`; a Go
  `nil` AST child is `none`, and a Go `nil` `object.Object` value is
  `none` in the `GoVal` type.
* A Go runtime panic (crash of the interpreter process) and running out
  of fuel are both modelled by the outermost `Option` of a result being
  `none`; the fueled functions return `some` on every run the Go program
  completes normally, for a large enough fuel.
* Go's `int64` is modelled as `Int` with explicit wrapping (`wrap64`)
  where Go arithmetic wraps; `/` and `%` on `int64` are Go's
  truncated division and remainder (`Int.tdiv` / `Int.tmod`).
* Go's `float64` is abstracted by a structure `FloatModel` providing the
  operations the interpreter uses on floats (arithmetic, comparison with
  `==`/`<`, conversion `int64 → float64` and the truncating conversion
  `float64 → int64`, the repeated-multiplication power loop, and
  `strconv.ParseFloat`). All theorems about float behaviour are proved
  for every model; concrete instances (`intFM` over `Int`, `ratFM` over
  `ℚ`) are used for closed witnesses and counterexamples, on inputs where
  IEEE-754 doubles behave exactly like the instance (small integers and
  exactly representable fractions such as 1/2).
* Go pointer identity of heap objects, where observable (the fallthrough
  `==` of the evaluator), is modelled by allocation identifiers drawn
  from a counter in the store (`nextId`); instances, whose property map
  is mutated through a shared pointer during construction, live in an
  explicit instance heap (`Store.instances`) and are referenced by index.
* Go `map[string]X` values are modelled as association lists updated by
  `setAssoc` (replace-or-append) and read by `getAssoc` (first match),
  which reproduces Go map lookup/insert exactly; the nondeterministic
  iteration order of Go maps is fixed to insertion order where the code
  iterates a map (hash literals, class property copies) — no claim below
  depends on that order.
-/

namespace Gaby

/-! ## Tokens (`internal/lexer/token.go`)

`TokenType` is a string in Go; token-kind constants are the strings
themselves (operators are their own spelling, keywords are upper-case
names). -/

structure Token where
  type : String
  literal : String
  line : Nat
  column : Nat
deriving DecidableEq

/-- Token kinds, from `token.go`. Only the constants the parser consults
are named here; the remaining kinds occur as their string values. -/
def ILLEGAL : String := "ILLEGAL"

def EOF : String := "EOF"

def IDENT : String := "IDENT"

def NUM : String := "NUM"

def STRING : String := "STRING"

def ASSIGN : String := "="

def PLUS : String := "+"

def MINUS : String := "-"

def BANG : String := "!"

def ASTERISK : String := "*"

def SLASH : String := "/"

def MOD : String := "%"

def POWER : String := "^"

def LT : String := "<"

def GT : String := ">"

def EQ : String := "=="

def NOT_EQ : String := "!="

/-- The walrus token `:=` (`DECLARE` in `token.go`). -/
def DECLARE : String := ":="

def COMMA : String := ","

def SEMICOLON : String := ";"

def COLON : String := ":"

def DOT : String := "."

def LPAREN : String := "("

def RPAREN : String := ")"

def LBRACE : String := "\x7b"

def RBRACE : String := "\x7d"

def LBRACKET : String := "["

def RBRACKET : String := "]"

def FUNCTION : String := "FUNCTION"

def CLASS : String := "CLASS"

def IF : String := "IF"

def ELSE : String := "ELSE"

def RETURN : String := "RETURN"

def TRUE : String := "TRUE"

def FALSE : String := "FALSE"

def NULL : String := "NULL"

def WHILE : String := "WHILE"

def FOR : String := "FOR"

def AND : String := "AND"

def OR : String := "OR"

def NEW : String := "NEW"

def EXTENDS : String := "EXTENDS"

def IMPLEMENTS : String := "IMPLEMENTS"

def VAR : String := "VAR"

/-- The keyword table of `token.go` (`keywords`), restricted to the map
itself; `LookupIdent` is below. Kinds with no parser behaviour are kept
for fidelity. -/
def keywords : List (String × String) :=
  [("fun", FUNCTION), ("clase", CLASS), ("proto", "PROTO"),
   ("si", IF), ("sino", ELSE), ("cuando", "WHEN"),
   ("devolver", RETURN), ("verdad", TRUE), ("falso", FALSE),
   ("nulo", NULL), ("mientras", WHILE), ("para", FOR),
   ("repetir", "REPEAT"), ("haz", "DO"), ("romper", "BREAK"),
   ("continuar", "CONTINUE"), ("evaluar", "SWITCH"), ("caso", "CASE"),
   ("defecto", "DEFAULT"), ("en", "IN"), ("desde", "FROM"),
   ("hasta", "TO"), ("y", AND), ("o", OR), ("no", "NOT"),
   ("es", "IS"), ("no_es", "ISNOT"), ("nuevo", NEW),
   ("extiende", EXTENDS), ("implementa", IMPLEMENTS), ("guarda", VAR),
   ("publico", "PUBLIC"), ("privado", "PRIVATE"),
   ("protegido", "PROTECTED"), ("estatico", "STATIC"),
   ("final", "FINAL"), ("esto", "THIS"), ("super", "SUPER"),
   ("intentar", "TRY"), ("atrapar", "CATCH"),
   ("finalmente", "FINALLY"), ("lanzar", "THROW")]

/-- `LookupIdent` of `token.go`. -/
def LookupIdent (ident : String) : String :=
  match keywords.lookup ident with
  | some t => t
  | none => IDENT

/-! ## AST (the node types of the parser package)

`F` is the carrier of `float64` values (see `FloatModel` below); the
parser stores a parsed `float64` in `FloatLiteral.Value`, hence the AST
is parametrised by `F`.

Nilable Go pointer/interface fields are `Option`; fields the Go parser
always populates on the nodes it returns are not.  `Identifier` is both
an expression (`Expr.ident`) and the type of name/parameter/property
fields. `FnLitData` is the payload of `parser.FunctionLiteral`, used both
as an expression and as a class-method entry; `LetData` is the payload of
`parser.LetStatement`.  `Stmt.letNil` models the Go typed-nil
`*LetStatement` that `parseStatement` can hand to `ParseProgram` (the
`stmt != nil` interface check does not catch a typed nil). -/

structure Identifier where
  token : Token
  value : String
deriving DecidableEq

mutual

inductive Expr (F : Type) where
  | ident (token : Token) (value : String)
  | integerLit (token : Token) (value : Int)
  | floatLit (token : Token) (value : F)
  | stringLit (token : Token) (value : String)
  | booleanLit (token : Token) (value : Bool)
  | nullLit (token : Token)
  | prefixE (token : Token) (operator : String) (right : Option (Expr F))
  | infixE (token : Token) (left : Option (Expr F)) (operator : String)
      (right : Option (Expr F))
  | ifE (token : Token) (condition : Option (Expr F))
      (consequence : Block F) (alternative : Option (Block F))
  | whileE (token : Token) (condition : Option (Expr F)) (body : Block F)
  | forE (token : Token) (init : Option (Stmt F))
      (condition : Option (Expr F)) (update : Option (Stmt F))
      (body : Block F)
  | functionLit (d : FnLitData F)
  | callE (token : Token) (function : Option (Expr F))
      (arguments : List (Option (Expr F)))
  | arrayLit (token : Token) (elements : List (Option (Expr F)))
  | indexE (token : Token) (left : Option (Expr F))
      (index : Option (Expr F))
  | hashLit (token : Token)
      (pairs : List (Option (Expr F) × Option (Expr F)))
  | dotE (token : Token) (obj : Option (Expr F)) (property : Identifier)
  | classLit (token : Token) (name : Identifier)
      (parent : Option Identifier) (interfaces : List Identifier)
      (properties : List (Option (LetData F))) (methods : List (FnLitData F))
  | newE (token : Token) (cls : Option (Expr F))
      (arguments : List (Option (Expr F)))

inductive Stmt (F : Type) where
  | letS (d : LetData F)
  | letNil
  | returnS (token : Token) (returnValue : Option (Expr F))
  | exprS (token : Token) (expression : Option (Expr F))
  | blockS (b : Block F)

inductive LetData (F : Type) where
  | mk (token : Token) (name : Identifier) (value : Option (Expr F))

inductive FnLitData (F : Type) where
  | mk (token : Token) (name : String) (parameters : List Identifier)
      (body : Block F)

inductive Block (F : Type) where
  | mk (token : Token) (statements : List (Stmt F))

end

def LetData.token {F : Type} : LetData F → Token
  | .mk t _ _ => t

def LetData.name {F : Type} : LetData F → Identifier
  | .mk _ n _ => n

def LetData.value {F : Type} : LetData F → Option (Expr F)
  | .mk _ _ v => v

def FnLitData.token {F : Type} : FnLitData F → Token
  | .mk t _ _ _ => t

def FnLitData.name {F : Type} : FnLitData F → String
  | .mk _ n _ _ => n

def FnLitData.parameters {F : Type} : FnLitData F → List Identifier
  | .mk _ _ p _ => p

def FnLitData.body {F : Type} : FnLitData F → Block F
  | .mk _ _ _ b => b

def Block.statements {F : Type} : Block F → List (Stmt F)
  | .mk _ s => s

/-- `parser.Program` (only the statement list matters to the evaluator). -/
structure Program (F : Type) where
  statements : List (Stmt F)

/-! ## The float64 abstraction

The interpreter uses `float64` only through the operations below. All
theorems are stated for an arbitrary model; the concrete models `intFM`
(floats restricted to integral values) and `ratFM` (floats as exact
rationals) instantiate them for closed witnesses, on inputs where IEEE-754
doubles agree exactly with the model. -/

structure FloatModel (F : Type) where
  /-- the float64 literal `0` (compared with `==`, so `-0.0` also tests
  equal to it). -/
  zero : F
  /-- Go conversion `float64(i)` for an `int64` operand. -/
  ofInt : Int → F
  /-- Go conversion `int64(f)`: truncation toward zero
  (implementation-specific when out of range, abstracted here). -/
  toInt : F → Int
  /-- Go unary negation `-f`. -/
  neg : F → F
  add : F → F → F
  sub : F → F → F
  mul : F → F → F
  div : F → F → F
  /-- Go `==` on float64. -/
  beq : F → F → Bool
  /-- Go `<` on float64. -/
  lt : F → F → Bool
  /-- the result of the evaluator's `^` loop on floats
  (`for i := 0.0; i < rightVal; i++ { result *= leftVal }`). -/
  fpow : F → F → F
  /-- `strconv.ParseFloat(s, 64)` (`none` = parse error). -/
  parseFloat : String → Option F

/-! ## The parser (`internal/parser/parser.go`)

The parser is modelled at token level: `PState` holds the remaining
token stream, the two-token lookahead window and the error list of the
Go `Parser` struct. Once the stream is exhausted the lexer keeps
producing `EOF` tokens; `eofFallback` stands for those (its position
fields are a modelling default — concrete runs below always provide the
final `EOF` token explicitly).

All parse functions take fuel and return `none` exactly when the Go
parser would not return normally: either the fuel is exhausted, or the
Go code panics (the only parser panic is the `.(*FunctionLiteral)` type
assertion in `parseClassLiteral` when `parseFunctionLiteral` returned a
nil interface). A `none` *inside* the returned pair models a Go `nil`
node pointer. -/

structure PState where
  tokens : List Token
  curToken : Token
  peekToken : Token
  errors : List String
deriving DecidableEq

def eofFallback : Token := ⟨EOF, "", 0, 0⟩

/-- the Go zero `Token` value the parser starts from before `New` reads
the first two tokens. -/
def zeroToken : Token := ⟨"", "", 0, 0⟩

def nextToken (p : PState) : PState :=
  { tokens := p.tokens.tail,
    curToken := p.peekToken,
    peekToken := p.tokens.headD eofFallback,
    errors := p.errors }

/-- `New` (the two initial `nextToken` calls; the handler registration is
modelled by the dispatch functions below). -/
def mkParser (ts : List Token) : PState :=
  nextToken (nextToken ⟨ts, zeroToken, zeroToken, []⟩)

def curTokenIs (p : PState) (t : String) : Bool := p.curToken.type = t

def peekTokenIs (p : PState) (t : String) : Bool := p.peekToken.type = t

def peekError (p : PState) (t : String) : PState :=
  { p with errors := p.errors ++
      ["línea " ++ toString p.peekToken.line ++ ", columna " ++
       toString p.peekToken.column ++ ": se esperaba token " ++ t ++
       ", se obtuvo " ++ p.peekToken.type] }

def expectPeek (p : PState) (t : String) : Bool × PState :=
  if peekTokenIs p t then (true, nextToken p)
  else (false, peekError p t)

def noPrefixParseFnError (p : PState) : PState :=
  { p with errors := p.errors ++
      ["línea " ++ toString p.curToken.line ++ ", columna " ++
       toString p.curToken.column ++
       ": no hay función de análisis de prefijo para " ++
       p.curToken.type] }

/-- the precedence constants (`iota` block of `parser.go`). -/
def LOWEST_PREC : Nat := 1

def ASSIGN_PREC : Nat := 2

def LOGICAL_PREC : Nat := 3

def EQUALS_PREC : Nat := 4

def LESSGREATER_PREC : Nat := 5

def SUM_PREC : Nat := 6

def PRODUCT_PREC : Nat := 7

def PREFIX_PREC : Nat := 8

def CALL_PREC : Nat := 9

def INDEX_PREC : Nat := 10

def DOT_PREC : Nat := 11

/-- the `precedences` map. Note `DECLARE` (`:=`) has no entry. -/
def precedences : List (String × Nat) :=
  [(ASSIGN, ASSIGN_PREC), (EQ, EQUALS_PREC), (NOT_EQ, EQUALS_PREC),
   (LT, LESSGREATER_PREC), (GT, LESSGREATER_PREC), (PLUS, SUM_PREC),
   (MINUS, SUM_PREC), (SLASH, PRODUCT_PREC), (ASTERISK, PRODUCT_PREC),
   (MOD, PRODUCT_PREC), (POWER, PRODUCT_PREC), (LPAREN, CALL_PREC),
   (LBRACKET, INDEX_PREC), (DOT, DOT_PREC), (AND, LOGICAL_PREC),
   (OR, LOGICAL_PREC)]

def peekPrecedence (p : PState) : Nat :=
  (precedences.lookup p.peekToken.type).getD LOWEST_PREC

def curPrecedence (p : PState) : Nat :=
  (precedences.lookup p.curToken.type).getD LOWEST_PREC

/-- the token kinds with a registered prefix handler (`registerPrefix`
calls in `New`). Note: no entry for `DECLARE` (`:=`). -/
def prefixFnDefined (t : String) : Bool :=
  t = IDENT || t = NUM || t = STRING || t = TRUE || t = FALSE ||
  t = NULL || t = BANG || t = MINUS || t = LPAREN || t = IF ||
  t = FUNCTION || t = LBRACKET || t = LBRACE || t = WHILE || t = FOR ||
  t = CLASS || t = NEW

/-- the token kinds with a registered infix handler (`registerInfix`
calls in `New`). Note: neither `ASSIGN` (`=`) nor `DECLARE` (`:=`) is
registered. -/
def infixFnDefined (t : String) : Bool :=
  t = PLUS || t = MINUS || t = SLASH || t = ASTERISK || t = MOD ||
  t = POWER || t = EQ || t = NOT_EQ || t = LT || t = GT ||
  t = LPAREN || t = LBRACKET || t = DOT || t = AND || t = OR

/-- a model of `strconv.ParseInt(s, 0, 64)` on the literals the lexer
can produce for `NUM` tokens (runs of decimal digits; base 0 therefore
means: a leading `0` on a longer literal selects octal). `none` is a
non-nil error (bad digit, or value outside the `int64` range; `ParseInt`
inputs here are unsigned literals, so only the upper bound matters). -/
def parseIntDigits (base : Nat) (cs : List Char) : Option Nat :=
  cs.foldl (fun acc c =>
    match acc with
    | none => none
    | some v =>
      if c.isDigit && c.toNat - 48 < base then some (v * base + (c.toNat - 48))
      else none) (some 0)

def parseIntGo (s : String) : Option Int :=
  match s.toList with
  | [] => none
  | ['0'] => some 0
  | '0' :: rest =>
    match parseIntDigits 8 rest with
    | none => none
    | some v => if v ≤ 2 ^ 63 - 1 then some (v : Int) else none
  | cs =>
    match parseIntDigits 10 cs with
    | none => none
    | some v => if v ≤ 2 ^ 63 - 1 then some (v : Int) else none

/-- `parseStringLiteral`. -/
def parseStringLiteral {F : Type} (p : PState) : Expr F :=
  .stringLit p.curToken p.curToken.literal

/-- `parseIdentifier`. -/
def parseIdentifier {F : Type} (p : PState) : Expr F :=
  .ident p.curToken p.curToken.literal

/-- `parseBooleanLiteral`. -/
def parseBooleanLiteral {F : Type} (p : PState) : Expr F :=
  .booleanLit p.curToken (curTokenIs p TRUE)

/-- `parseNullLiteral`. -/
def parseNullLiteral {F : Type} (p : PState) : Expr F :=
  .nullLit p.curToken

/-- `parseNumberLiteral` (`strconv.ContainsAny(lit, ".")` decides float
vs integer; `%q` in the Go error messages is rendered as plain double
quoting, which agrees with `%q` on the quote-free, escape-free literals
the lexer produces for numbers). -/
def parseNumberLiteral {F : Type} (FM : FloatModel F) (p : PState) :
    Option (Expr F) × PState :=
  if p.curToken.literal.toList.contains '.' then
    match FM.parseFloat p.curToken.literal with
    | none =>
      (none, { p with errors := p.errors ++
        ["línea " ++ toString p.curToken.line ++ ", columna " ++
         toString p.curToken.column ++ ": no se pudo analizar \"" ++
         p.curToken.literal ++ "\" como número decimal"] })
    | some v => (some (.floatLit p.curToken v), p)
  else
    match parseIntGo p.curToken.literal with
    | none =>
      (none, { p with errors := p.errors ++
        ["línea " ++ toString p.curToken.line ++ ", columna " ++
         toString p.curToken.column ++ ": no se pudo analizar \"" ++
         p.curToken.literal ++ "\" como entero"] })
    | some v => (some (.integerLit p.curToken v), p)

/-- `parseDotExpression` (no recursion into `parseExpression`). -/
def parseDotExpression {F : Type} (left : Option (Expr F)) (p : PState) :
    Option (Expr F) × PState :=
  let tok := p.curToken
  match expectPeek p IDENT with
  | (false, p1) => (none, p1)
  | (true, p1) =>
    (some (.dotE tok left ⟨p1.curToken, p1.curToken.literal⟩), p1)

section ParserDefs

variable {F : Type} (FM : FloatModel F)

/-! The mutually recursive parse functions. Every function consumes one
unit of fuel on entry; with enough fuel the behaviour is exactly that of
the Go parser (which always terminates on a finite token stream). -/

mutual

/-- `parseExpression`. -/
def parseExpression (fuel : Nat) (precedence : Nat) (p : PState) :
    Option (Option (Expr F) × PState) :=
  match fuel with
  | 0 => none
  | fuel + 1 =>
    if prefixFnDefined p.curToken.type then
      match prefixFnDispatch fuel p with
      | none => none
      | some (leftExp, p1) => parseExprLoop fuel precedence leftExp p1
    else some (none, noPrefixParseFnError p)

/-- the `for` loop of `parseExpression` (the infix-climbing loop). -/
def parseExprLoop (fuel : Nat) (precedence : Nat)
    (leftExp : Option (Expr F)) (p : PState) :
    Option (Option (Expr F) × PState) :=
  match fuel with
  | 0 => none
  | fuel + 1 =>
    if ¬ peekTokenIs p SEMICOLON ∧ precedence < peekPrecedence p then
      if infixFnDefined p.peekToken.type then
        let p1 := nextToken p
        match infixFnDispatch fuel leftExp p1 with
        | none => none
        | some (leftExp1, p2) => parseExprLoop fuel precedence leftExp1 p2
      else some (leftExp, p)
    else some (leftExp, p)

/-- dispatch over `prefixParseFns` (the `registerPrefix` table). The
final branch is unreachable: callers first check `prefixFnDefined`. -/
def prefixFnDispatch (fuel : Nat) (p : PState) :
    Option (Option (Expr F) × PState) :=
  match fuel with
  | 0 => none
  | fuel + 1 =>
    if p.curToken.type = IDENT then some (some (parseIdentifier p), p)
    else if p.curToken.type = NUM then some (parseNumberLiteral FM p)
    else if p.curToken.type = STRING then
      some (some (parseStringLiteral p), p)
    else if p.curToken.type = TRUE ∨ p.curToken.type = FALSE then
      some (some (parseBooleanLiteral p), p)
    else if p.curToken.type = NULL then some (some (parseNullLiteral p), p)
    else if p.curToken.type = BANG ∨ p.curToken.type = MINUS then
      parsePrefixExpression fuel p
    else if p.curToken.type = LPAREN then parseGroupedExpression fuel p
    else if p.curToken.type = IF then parseIfExpression fuel p
    else if p.curToken.type = FUNCTION then
      match parseFunctionLiteral fuel p with
      | none => none
      | some (none, p1) => some (none, p1)
      | some (some d, p1) => some (some (.functionLit d), p1)
    else if p.curToken.type = LBRACKET then parseArrayLiteral fuel p
    else if p.curToken.type = LBRACE then parseHashLiteral fuel p
    else if p.curToken.type = WHILE then parseWhileExpression fuel p
    else if p.curToken.type = FOR then parseForExpression fuel p
    else if p.curToken.type = CLASS then parseClassLiteral fuel p
    else if p.curToken.type = NEW then parseNewExpression fuel p
    else some (none, p)

/-- dispatch over `infixParseFns` (the `registerInfix` table). The final
branch is unreachable: callers first check `infixFnDefined`. -/
def infixFnDispatch (fuel : Nat) (leftExp : Option (Expr F))
    (p : PState) : Option (Option (Expr F) × PState) :=
  match fuel with
  | 0 => none
  | fuel + 1 =>
    if p.curToken.type = PLUS ∨ p.curToken.type = MINUS ∨
       p.curToken.type = SLASH ∨ p.curToken.type = ASTERISK ∨
       p.curToken.type = MOD ∨ p.curToken.type = POWER ∨
       p.curToken.type = EQ ∨ p.curToken.type = NOT_EQ ∨
       p.curToken.type = LT ∨ p.curToken.type = GT ∨
       p.curToken.type = AND ∨ p.curToken.type = OR then
      parseInfixExpression fuel leftExp p
    else if p.curToken.type = LPAREN then
      parseCallExpression fuel leftExp p
    else if p.curToken.type = LBRACKET then
      parseIndexExpression fuel leftExp p
    else if p.curToken.type = DOT then some (parseDotExpression leftExp p)
    else some (leftExp, p)

/-- `parsePrefixExpression`. -/
def parsePrefixExpression (fuel : Nat) (p : PState) :
    Option (Option (Expr F) × PState) :=
  match fuel with
  | 0 => none
  | fuel + 1 =>
    let tok := p.curToken
    let operator := p.curToken.literal
    let p1 := nextToken p
    match parseExpression fuel PREFIX_PREC p1 with
    | none => none
    | some (right, p2) => some (some (.prefixE tok operator right), p2)

/-- `parseInfixExpression`. -/
def parseInfixExpression (fuel : Nat) (leftExp : Option (Expr F))
    (p : PState) : Option (Option (Expr F) × PState) :=
  match fuel with
  | 0 => none
  | fuel + 1 =>
    let tok := p.curToken
    let operator := p.curToken.literal
    let precedence := curPrecedence p
    let p1 := nextToken p
    match parseExpression fuel precedence p1 with
    | none => none
    | some (right, p2) =>
      some (some (.infixE tok leftExp operator right), p2)

/-- `parseGroupedExpression`. -/
def parseGroupedExpression (fuel : Nat) (p : PState) :
    Option (Option (Expr F) × PState) :=
  match fuel with
  | 0 => none
  | fuel + 1 =>
    let p1 := nextToken p
    match parseExpression fuel LOWEST_PREC p1 with
    | none => none
    | some (e, p2) =>
      match expectPeek p2 RPAREN with
      | (false, p3) => some (none, p3)
      | (true, p3) => some (e, p3)

/-- `parseIfExpression`. -/
def parseIfExpression (fuel : Nat) (p : PState) :
    Option (Option (Expr F) × PState) :=
  match fuel with
  | 0 => none
  | fuel + 1 =>
    let tok := p.curToken
    match expectPeek p LPAREN with
    | (false, p1) => some (none, p1)
    | (true, p1) =>
      let p2 := nextToken p1
      match parseExpression fuel LOWEST_PREC p2 with
      | none => none
      | some (condition, p3) =>
        match expectPeek p3 RPAREN with
        | (false, p4) => some (none, p4)
        | (true, p4) =>
          match expectPeek p4 LBRACE with
          | (false, p5) => some (none, p5)
          | (true, p5) =>
            match parseBlockStatement fuel p5 with
            | none => none
            | some (consequence, p6) =>
              if peekTokenIs p6 ELSE then
                let p7 := nextToken p6
                match expectPeek p7 LBRACE with
                | (false, p8) => some (none, p8)
                | (true, p8) =>
                  match parseBlockStatement fuel p8 with
                  | none => none
                  | some (alternative, p9) =>
                    some (some (.ifE tok condition consequence
                      (some alternative)), p9)
              else some (some (.ifE tok condition consequence none), p6)

/-- `parseBlockStatement`. -/
def parseBlockStatement (fuel : Nat) (p : PState) :
    Option (Block F × PState) :=
  match fuel with
  | 0 => none
  | fuel + 1 =>
    let tok := p.curToken
    let p1 := nextToken p
    match parseBlockLoop fuel p1 with
    | none => none
    | some (stmts, p2) => some (⟨tok, stmts⟩, p2)

/-- the statement loop of `parseBlockStatement` (the Go `stmt != nil`
check never fails: `parseStatement` always returns a non-nil interface,
possibly holding a typed-nil `*LetStatement`, modelled by
`Stmt.letNil`). -/
def parseBlockLoop (fuel : Nat) (p : PState) :
    Option (List (Stmt F) × PState) :=
  match fuel with
  | 0 => none
  | fuel + 1 =>
    if ¬ curTokenIs p RBRACE ∧ ¬ curTokenIs p EOF then
      match parseStatement fuel p with
      | none => none
      | some (s, p1) =>
        match parseBlockLoop fuel (nextToken p1) with
        | none => none
        | some (rest, p2) => some (s :: rest, p2)
    else some ([], p)

/-- `parseStatement`. -/
def parseStatement (fuel : Nat) (p : PState) : Option (Stmt F × PState) :=
  match fuel with
  | 0 => none
  | fuel + 1 =>
    if curTokenIs p VAR then
      match parseLetStatement fuel p with
      | none => none
      | some (some d, p1) => some (.letS d, p1)
      | some (none, p1) => some (.letNil, p1)
    else if curTokenIs p RETURN then parseReturnStatement fuel p
    else parseExpressionStatement fuel p

/-- `parseLetStatement` (inner `none` = the Go nil `*LetStatement`). -/
def parseLetStatement (fuel : Nat) (p : PState) :
    Option (Option (LetData F) × PState) :=
  match fuel with
  | 0 => none
  | fuel + 1 =>
    let tok := p.curToken
    match expectPeek p IDENT with
    | (false, p1) => some (none, p1)
    | (true, p1) =>
      let name : Identifier := ⟨p1.curToken, p1.curToken.literal⟩
      match expectPeek p1 ASSIGN with
      | (false, p2) => some (none, p2)
      | (true, p2) =>
        let p3 := nextToken p2
        match parseExpression fuel LOWEST_PREC p3 with
        | none => none
        | some (value, p4) =>
          let p5 := if peekTokenIs p4 SEMICOLON then nextToken p4 else p4
          some (some ⟨tok, name, value⟩, p5)

/-- `parseReturnStatement`. -/
def parseReturnStatement (fuel : Nat) (p : PState) :
    Option (Stmt F × PState) :=
  match fuel with
  | 0 => none
  | fuel + 1 =>
    let tok := p.curToken
    let p1 := nextToken p
    if curTokenIs p1 SEMICOLON then some (.returnS tok none, p1)
    else
      match parseExpression fuel LOWEST_PREC p1 with
      | none => none
      | some (v, p2) =>
        let p3 := if peekTokenIs p2 SEMICOLON then nextToken p2 else p2
        some (.returnS tok v, p3)

/-- `parseExpressionStatement`. -/
def parseExpressionStatement (fuel : Nat) (p : PState) :
    Option (Stmt F × PState) :=
  match fuel with
  | 0 => none
  | fuel + 1 =>
    let tok := p.curToken
    match parseExpression fuel LOWEST_PREC p with
    | none => none
    | some (e, p1) =>
      let p2 := if peekTokenIs p1 SEMICOLON then nextToken p1 else p1
      some (.exprS tok e, p2)

/-- `parseFunctionLiteral` (inner `none` = the Go bare-nil return). -/
def parseFunctionLiteral (fuel : Nat) (p : PState) :
    Option (Option (FnLitData F) × PState) :=
  match fuel with
  | 0 => none
  | fuel + 1 =>
    let tok := p.curToken
    let np := if peekTokenIs p IDENT then
        let q := nextToken p
        (q.curToken.literal, q)
      else ("", p)
    match expectPeek np.2 LPAREN with
    | (false, p2) => some (none, p2)
    | (true, p2) =>
      match parseFunctionParameters fuel p2 with
      | none => none
      | some (params, p3) =>
        match expectPeek p3 LBRACE with
        | (false, p4) => some (none, p4)
        | (true, p4) =>
          match parseBlockStatement fuel p4 with
          | none => none
          | some (body, p5) => some (some ⟨tok, np.1, params, body⟩, p5)

/-- `parseFunctionParameters`. A missing closing `)` makes the Go code
return a nil slice; nil and empty parameter slices are indistinguishable
to the evaluator, and both are `[]`. -/
def parseFunctionParameters (fuel : Nat) (p : PState) :
    Option (List Identifier × PState) :=
  match fuel with
  | 0 => none
  | fuel + 1 =>
    if peekTokenIs p RPAREN then some ([], nextToken p)
    else
      let p1 := nextToken p
      let first : Identifier := ⟨p1.curToken, p1.curToken.literal⟩
      match parseParamsLoop fuel p1 with
      | none => none
      | some (rest, p2) =>
        match expectPeek p2 RPAREN with
        | (false, p3) => some ([], p3)
        | (true, p3) => some (first :: rest, p3)

/-- the comma loop of `parseFunctionParameters`. -/
def parseParamsLoop (fuel : Nat) (p : PState) :
    Option (List Identifier × PState) :=
  match fuel with
  | 0 => none
  | fuel + 1 =>
    if peekTokenIs p COMMA then
      let p1 := nextToken (nextToken p)
      let ident : Identifier := ⟨p1.curToken, p1.curToken.literal⟩
      match parseParamsLoop fuel p1 with
      | none => none
      | some (rest, p2) => some (ident :: rest, p2)
    else some ([], p)

/-- `parseCallExpression`. -/
def parseCallExpression (fuel : Nat) (function : Option (Expr F))
    (p : PState) : Option (Option (Expr F) × PState) :=
  match fuel with
  | 0 => none
  | fuel + 1 =>
    let tok := p.curToken
    match parseExpressionList fuel RPAREN p with
    | none => none
    | some (args, p1) => some (some (.callE tok function args), p1)

/-- `parseExpressionList`. A missing end token makes the Go code return
a nil slice, modelled as `[]` (indistinguishable to the evaluator). -/
def parseExpressionList (fuel : Nat) (endT : String) (p : PState) :
    Option (List (Option (Expr F)) × PState) :=
  match fuel with
  | 0 => none
  | fuel + 1 =>
    if peekTokenIs p endT then some ([], nextToken p)
    else
      let p1 := nextToken p
      match parseExpression fuel LOWEST_PREC p1 with
      | none => none
      | some (e, p2) =>
        match parseExprListLoop fuel p2 with
        | none => none
        | some (rest, p3) =>
          match expectPeek p3 endT with
          | (false, p4) => some ([], p4)
          | (true, p4) => some (e :: rest, p4)

/-- the comma loop of `parseExpressionList`. -/
def parseExprListLoop (fuel : Nat) (p : PState) :
    Option (List (Option (Expr F)) × PState) :=
  match fuel with
  | 0 => none
  | fuel + 1 =>
    if peekTokenIs p COMMA then
      let p1 := nextToken (nextToken p)
      match parseExpression fuel LOWEST_PREC p1 with
      | none => none
      | some (e, p2) =>
        match parseExprListLoop fuel p2 with
        | none => none
        | some (rest, p3) => some (e :: rest, p3)
    else some ([], p)

/-- `parseArrayLiteral`. -/
def parseArrayLiteral (fuel : Nat) (p : PState) :
    Option (Option (Expr F) × PState) :=
  match fuel with
  | 0 => none
  | fuel + 1 =>
    let tok := p.curToken
    match parseExpressionList fuel RBRACKET p with
    | none => none
    | some (elements, p1) => some (some (.arrayLit tok elements), p1)

/-- `parseIndexExpression`. -/
def parseIndexExpression (fuel : Nat) (left : Option (Expr F))
    (p : PState) : Option (Option (Expr F) × PState) :=
  match fuel with
  | 0 => none
  | fuel + 1 =>
    let tok := p.curToken
    let p1 := nextToken p
    match parseExpression fuel LOWEST_PREC p1 with
    | none => none
    | some (index, p2) =>
      match expectPeek p2 RBRACKET with
      | (false, p3) => some (none, p3)
      | (true, p3) => some (some (.indexE tok left index), p3)

/-- `parseHashLiteral`. Go stores pairs in a `map[Expression]Expression`
keyed by freshly allocated node pointers, so no two pairs ever collide;
the model keeps them as a list in source order. -/
def parseHashLiteral (fuel : Nat) (p : PState) :
    Option (Option (Expr F) × PState) :=
  match fuel with
  | 0 => none
  | fuel + 1 =>
    let tok := p.curToken
    if peekTokenIs p RBRACE then
      some (some (.hashLit tok []), nextToken p)
    else
      let p1 := nextToken p
      match parseExpression fuel LOWEST_PREC p1 with
      | none => none
      | some (k, p2) =>
        match expectPeek p2 COLON with
        | (false, p3) => some (none, p3)
        | (true, p3) =>
          let p4 := nextToken p3
          match parseExpression fuel LOWEST_PREC p4 with
          | none => none
          | some (v, p5) =>
            match parseHashLoop fuel p5 with
            | none => none
            | some (none, p6) => some (none, p6)
            | some (some rest, p6) =>
              match expectPeek p6 RBRACE with
              | (false, p7) => some (none, p7)
              | (true, p7) =>
                some (some (.hashLit tok ((k, v) :: rest)), p7)

/-- the comma loop of `parseHashLiteral` (inner `none` = the loop hit a
missing `:` and the whole hash is the Go nil node). -/
def parseHashLoop (fuel : Nat) (p : PState) :
    Option (Option (List (Option (Expr F) × Option (Expr F))) × PState) :=
  match fuel with
  | 0 => none
  | fuel + 1 =>
    if peekTokenIs p COMMA then
      let p1 := nextToken (nextToken p)
      match parseExpression fuel LOWEST_PREC p1 with
      | none => none
      | some (k, p2) =>
        match expectPeek p2 COLON with
        | (false, p3) => some (none, p3)
        | (true, p3) =>
          let p4 := nextToken p3
          match parseExpression fuel LOWEST_PREC p4 with
          | none => none
          | some (v, p5) =>
            match parseHashLoop fuel p5 with
            | none => none
            | some (none, p6) => some (none, p6)
            | some (some rest, p6) => some (some ((k, v) :: rest), p6)
    else some (some [], p)

/-- `parseWhileExpression`. -/
def parseWhileExpression (fuel : Nat) (p : PState) :
    Option (Option (Expr F) × PState) :=
  match fuel with
  | 0 => none
  | fuel + 1 =>
    let tok := p.curToken
    match expectPeek p LPAREN with
    | (false, p1) => some (none, p1)
    | (true, p1) =>
      let p2 := nextToken p1
      match parseExpression fuel LOWEST_PREC p2 with
      | none => none
      | some (condition, p3) =>
        match expectPeek p3 RPAREN with
        | (false, p4) => some (none, p4)
        | (true, p4) =>
          match expectPeek p4 LBRACE with
          | (false, p5) => some (none, p5)
          | (true, p5) =>
            match parseBlockStatement fuel p5 with
            | none => none
            | some (body, p6) =>
              some (some (.whileE tok condition body), p6)

/-- `parseForExpression`. -/
def parseForExpression (fuel : Nat) (p : PState) :
    Option (Option (Expr F) × PState) :=
  match fuel with
  | 0 => none
  | fuel + 1 =>
    let tok := p.curToken
    match expectPeek p LPAREN with
    | (false, p1) => some (none, p1)
    | (true, p1) =>
      let p2 := nextToken p1
      match (if ¬ curTokenIs p2 SEMICOLON then
          match parseStatement fuel p2 with
          | none => none
          | some (s, q) => some (some s, q)
        else some (none, p2) :
          Option (Option (Stmt F) × PState)) with
      | none => none
      | some (init, p3) =>
        match (if ¬ curTokenIs p3 SEMICOLON then expectPeek p3 SEMICOLON
          else (true, p3)) with
        | (false, p4) => some (none, p4)
        | (true, p4) =>
          let p5 := nextToken p4
          match (if ¬ curTokenIs p5 SEMICOLON then
              parseExpression fuel LOWEST_PREC p5
            else some (none, p5)) with
          | none => none
          | some (condition, p6) =>
            match (if ¬ curTokenIs p6 SEMICOLON then
                expectPeek p6 SEMICOLON
              else (true, p6)) with
            | (false, p7) => some (none, p7)
            | (true, p7) =>
              let p8 := nextToken p7
              match (if ¬ curTokenIs p8 RPAREN then
                  match parseStatement fuel p8 with
                  | none => none
                  | some (s, q) => some (some s, q)
                else some (none, p8) :
                  Option (Option (Stmt F) × PState)) with
              | none => none
              | some (update, p9) =>
                match expectPeek p9 RPAREN with
                | (false, pA) => some (none, pA)
                | (true, pA) =>
                  match expectPeek pA LBRACE with
                  | (false, pB) => some (none, pB)
                  | (true, pB) =>
                    match parseBlockStatement fuel pB with
                    | none => none
                    | some (body, pC) =>
                      some (some (.forE tok init condition update body), pC)

/-- `parseClassLiteral`. -/
def parseClassLiteral (fuel : Nat) (p : PState) :
    Option (Option (Expr F) × PState) :=
  match fuel with
  | 0 => none
  | fuel + 1 =>
    let tok := p.curToken
    match expectPeek p IDENT with
    | (false, p1) => some (none, p1)
    | (true, p1) =>
      let name : Identifier := ⟨p1.curToken, p1.curToken.literal⟩
      match (if peekTokenIs p1 EXTENDS then
          let q := nextToken p1
          match expectPeek q IDENT with
          | (false, q1) => some (none, q1)
          | (true, q1) =>
            some (some (⟨q1.curToken, q1.curToken.literal⟩ : Identifier), q1)
        else some (none, p1) :
          Option (Option Identifier × PState)) with
      | none => none
      | some (parent, p2) =>
        if (if peekTokenIs p1 EXTENDS then parent.isNone else false) then
          some (none, p2)
        else
          match (if peekTokenIs p2 IMPLEMENTS then
              let q := nextToken p2
              match expectPeek q IDENT with
              | (false, q1) => some (none, q1)
              | (true, q1) =>
                match parseIfacesLoop fuel q1 with
                | none => none
                | some (none, q2) => some (none, q2)
                | some (some rest, q2) =>
                  some (some
                    ((⟨q1.curToken, q1.curToken.literal⟩ : Identifier)
                      :: rest), q2)
            else some (some [], p2) :
              Option (Option (List Identifier) × PState)) with
          | none => none
          | some (none, p3) => some (none, p3)
          | some (some interfaces, p3) =>
            match expectPeek p3 LBRACE with
            | (false, p4) => some (none, p4)
            | (true, p4) =>
              let p5 := nextToken p4
              match parseClassBodyLoop fuel p5 with
              | none => none
              | some ((properties, methods), p6) =>
                some (some (.classLit tok name parent interfaces
                  properties methods), p6)

/-- the comma loop of the `implementa` clause (inner `none` = the Go
`return nil`). -/
def parseIfacesLoop (fuel : Nat) (p : PState) :
    Option (Option (List Identifier) × PState) :=
  match fuel with
  | 0 => none
  | fuel + 1 =>
    if peekTokenIs p COMMA then
      let q := nextToken p
      match expectPeek q IDENT with
      | (false, q1) => some (none, q1)
      | (true, q1) =>
        match parseIfacesLoop fuel q1 with
        | none => none
        | some (none, q2) => some (none, q2)
        | some (some rest, q2) =>
          some (some ((⟨q1.curToken, q1.curToken.literal⟩ : Identifier)
            :: rest), q2)
    else some (some [], p)

/-- the class-body loop. As in the Go code, neither member branch
advances the token afterwards (the loop re-tests the token that ended
the member). A nil result of `parseFunctionLiteral` makes the Go
`.(*FunctionLiteral)` assertion panic: that is the parser's only panic
(`none` here); a nil `*LetStatement` property is appended as `none`. -/
def parseClassBodyLoop (fuel : Nat) (p : PState) :
    Option ((List (Option (LetData F)) × List (FnLitData F)) × PState) :=
  match fuel with
  | 0 => none
  | fuel + 1 =>
    if ¬ curTokenIs p RBRACE ∧ ¬ curTokenIs p EOF then
      if curTokenIs p FUNCTION then
        match parseFunctionLiteral fuel p with
        | none => none
        | some (none, _) => none
        | some (some d, p1) =>
          match parseClassBodyLoop fuel p1 with
          | none => none
          | some ((props, methods), p2) => some ((props, d :: methods), p2)
      else if curTokenIs p VAR then
        match parseLetStatement fuel p with
        | none => none
        | some (d, p1) =>
          match parseClassBodyLoop fuel p1 with
          | none => none
          | some ((props, methods), p2) => some ((d :: props, methods), p2)
      else parseClassBodyLoop fuel (nextToken p)
    else some (([], []), p)

/-- `parseNewExpression`. -/
def parseNewExpression (fuel : Nat) (p : PState) :
    Option (Option (Expr F) × PState) :=
  match fuel with
  | 0 => none
  | fuel + 1 =>
    let tok := p.curToken
    let p1 := nextToken p
    match parseExpression fuel LOWEST_PREC p1 with
    | none => none
    | some (cls, p2) =>
      if peekTokenIs p2 LPAREN then
        let p3 := nextToken p2
        match parseExpressionList fuel RPAREN p3 with
        | none => none
        | some (args, p4) => some (some (.newE tok cls args), p4)
      else some (some (.newE tok cls []), p2)

/-- the statement loop of `ParseProgram` (the `stmt != nil` check never
fails, see `parseBlockLoop`). -/
def parseProgramLoop (fuel : Nat) (p : PState) :
    Option (List (Stmt F) × PState) :=
  match fuel with
  | 0 => none
  | fuel + 1 =>
    if ¬ curTokenIs p EOF then
      match parseStatement fuel p with
      | none => none
      | some (s, p1) =>
        match parseProgramLoop fuel (nextToken p1) with
        | none => none
        | some (rest, p2) => some (s :: rest, p2)
    else some ([], p)

end

/-- `ParseProgram`, starting from `New` on a token stream. -/
def ParseProgram (fuel : Nat) (ts : List Token) :
    Option (Program F × PState) :=
  match parseProgramLoop FM fuel (mkParser ts) with
  | none => none
  | some (ss, p) => some (⟨ss⟩, p)

end ParserDefs

/-! ## Runtime objects (`internal/object/object.go`)

Pointer identity, observable only through the fallthrough `==`/`!=` of
`evalInfixExpression`, is modelled by allocation identifiers (`id`
fields) drawn from `Store.nextId`; `Boolean` and `Null` objects are the
package-level singletons `TRUE`/`FALSE`/`NULL` everywhere in the
evaluator, so their identity is their value. Instances are mutated
through a shared pointer during construction and therefore live in the
instance heap `Store.instances`, referenced by index.

A Go `object.Object` interface value that may be `nil` is `GoVal`
(`none` = Go nil). `object.Class.Parent` is carried for fidelity but the
evaluator never assigns it (`evalClassLiteral` ignores inheritance), so
it is always `none` in reachable states. -/

/-- the `ObjectType` constants. -/
def INTEGER_OBJ : String := "ENTERO"

def FLOAT_OBJ : String := "DECIMAL"

def BOOLEAN_OBJ : String := "BOOLEANO"

def NULL_OBJ : String := "NULO"

def RETURN_VALUE_OBJ : String := "RETORNO"

def ERROR_OBJ : String := "ERROR"

def FUNCTION_OBJ : String := "FUNCION"

def STRING_OBJ : String := "TEXTO"

def BUILTIN_OBJ : String := "INCORPORADO"

def ARRAY_OBJ : String := "LISTA"

def HASH_OBJ : String := "MAPA"

def CLASS_OBJ : String := "CLASE"

def INSTANCE_OBJ : String := "INSTANCIA"

/-- `object.HashKey`. -/
structure HashKey where
  type : String
  value : Nat
deriving DecidableEq

mutual

inductive Obj (F : Type) where
  | integer (value : Int)
  | float (value : F)
  | boolean (value : Bool)
  | null
  | returnValue (value : Option (Obj F))
  | error (message : String)
  | function (fn : FunctionData F)
  | string (value : String)
  | builtin (name : String)
  | array (id : Nat) (elements : List (Option (Obj F)))
  | hash (id : Nat) (pairs : List (HashKey × Obj F × Option (Obj F)))
  | classObj (c : ClassData F)
  | instanceObj (h : Nat)

inductive FunctionData (F : Type) where
  | mk (id : Nat) (parameters : List Identifier) (body : Block F)
      (env : Nat) (name : String)

inductive ClassData (F : Type) where
  | mk (id : Nat) (name : String) (parent : Option (ClassData F))
      (properties : List (String × Option (Obj F)))
      (methods : List (String × FunctionData F))

end

abbrev GoVal (F : Type) := Option (Obj F)

def FunctionData.id {F : Type} : FunctionData F → Nat
  | .mk i _ _ _ _ => i

def FunctionData.parameters {F : Type} : FunctionData F → List Identifier
  | .mk _ p _ _ _ => p

def FunctionData.body {F : Type} : FunctionData F → Block F
  | .mk _ _ b _ _ => b

def FunctionData.env {F : Type} : FunctionData F → Nat
  | .mk _ _ _ e _ => e

def FunctionData.name {F : Type} : FunctionData F → String
  | .mk _ _ _ _ n => n

def ClassData.id {F : Type} : ClassData F → Nat
  | .mk i _ _ _ _ => i

def ClassData.name {F : Type} : ClassData F → String
  | .mk _ n _ _ _ => n

def ClassData.parent {F : Type} : ClassData F → Option (ClassData F)
  | .mk _ _ p _ _ => p

def ClassData.properties {F : Type} :
    ClassData F → List (String × Option (Obj F))
  | .mk _ _ _ p _ => p

def ClassData.methods {F : Type} :
    ClassData F → List (String × FunctionData F)
  | .mk _ _ _ _ m => m

/-- Go map lookup (association list, first match). -/
def getAssoc {κ α : Type} [DecidableEq κ] :
    List (κ × α) → κ → Option α
  | [], _ => none
  | (k, v) :: rest, key => if k = key then some v else getAssoc rest key

/-- Go map insert (replace-or-append). -/
def setAssoc {κ α : Type} [DecidableEq κ] :
    List (κ × α) → κ → α → List (κ × α)
  | [], key, v => [(key, v)]
  | (k, w) :: rest, key, v =>
    if k = key then (key, v) :: rest else (k, w) :: setAssoc rest key v

/-- `object.Environment` (one scope; `outer` is a handle into
`Store.scopes`). -/
structure Scope (F : Type) where
  bindings : List (String × GoVal F)
  outer : Option Nat

/-- `object.Instance` (`Class` is held by value — classes are never
mutated after `evalClassLiteral` builds them; `env` is a scope
handle). -/
structure InstanceData (F : Type) where
  cls : ClassData F
  properties : List (String × GoVal F)
  env : Nat

/-- the mutable heap of the interpreter: the arena of environment
scopes, the instance heap, and the allocation-identity counter. -/
structure Store (F : Type) where
  scopes : List (Scope F)
  instances : List (InstanceData F)
  nextId : Nat

def listModify {α : Type} : List α → Nat → (α → α) → List α
  | [], _, _ => []
  | x :: rest, 0, f => f x :: rest
  | x :: rest, n + 1, f => x :: listModify rest n f

/-- `Environment.Set` on the scope with handle `h` (Go map store:
replace-or-append). -/
def Store.setBinding {F : Type} (s : Store F) (h : Nat) (name : String)
    (v : GoVal F) : Store F :=
  let f : Scope F → Scope F :=
    fun sc => { sc with bindings := setAssoc sc.bindings name v }
  { s with scopes := listModify s.scopes h f }

/-- `NewEnclosedEnvironment` / `NewEnvironment` (fresh scope appended to
the arena; the handle is the old length). -/
def Store.allocScope {F : Type} (s : Store F) (sc : Scope F) :
    Nat × Store F :=
  (s.scopes.length, { s with scopes := s.scopes ++ [sc] })

def Store.allocInstance {F : Type} (s : Store F) (d : InstanceData F) :
    Nat × Store F :=
  (s.instances.length, { s with instances := s.instances ++ [d] })

def Store.setInstance {F : Type} (s : Store F) (ih : Nat)
    (d : InstanceData F) : Store F :=
  { s with instances := listModify s.instances ih (fun _ => d) }

/-- `Environment.Get`: chain lookup. The chase is fueled by `h + 1`,
which suffices for every store the interpreter builds (a scope's `outer`
handle is always smaller than its own, since `NewEnclosedEnvironment`
only wraps already-existing scopes — the `WfStore` predicate below). -/
def envGetAux {F : Type} (s : Store F) :
    Nat → Nat → String → Option (GoVal F)
  | 0, _, _ => none
  | fuel + 1, h, name =>
    match s.scopes.get? h with
    | none => none
    | some sc =>
      match getAssoc sc.bindings name with
      | some v => some v
      | none =>
        match sc.outer with
        | some o => envGetAux s fuel o name
        | none => none

def envGet {F : Type} (s : Store F) (h : Nat) (name : String) :
    Option (GoVal F) :=
  envGetAux s (h + 1) h name

/-- every scope's `outer` points strictly below it (true of every store
the evaluator constructs). -/
def WfStore {F : Type} (s : Store F) : Prop :=
  ∀ h sc, s.scopes.get? h = some sc → ∀ o, sc.outer = some o → o < h

/-- `Object.Type()`. -/
def typeOf {F : Type} : Obj F → String
  | .integer _ => INTEGER_OBJ
  | .float _ => FLOAT_OBJ
  | .boolean _ => BOOLEAN_OBJ
  | .null => NULL_OBJ
  | .returnValue _ => RETURN_VALUE_OBJ
  | .error _ => ERROR_OBJ
  | .function _ => FUNCTION_OBJ
  | .string _ => STRING_OBJ
  | .builtin _ => BUILTIN_OBJ
  | .array _ _ => ARRAY_OBJ
  | .hash _ _ => HASH_OBJ
  | .classObj _ => CLASS_OBJ
  | .instanceObj _ => INSTANCE_OBJ

/-! byte-level string helpers: Go `len(string)` counts UTF-8 bytes, and
`HashKey` for strings is 64-bit FNV-1a over the UTF-8 bytes. -/

def charUtf8 (c : Char) : List Nat :=
  let n := c.toNat
  if n < 128 then [n]
  else if n < 2048 then [192 + n / 64, 128 + n % 64]
  else if n < 65536 then [224 + n / 4096, 128 + n / 64 % 64, 128 + n % 64]
  else [240 + n / 262144, 128 + n / 4096 % 64, 128 + n / 64 % 64,
        128 + n % 64]

def utf8Bytes (s : String) : List Nat := (s.toList.map charUtf8).flatten

def utf8Len (s : String) : Nat := (utf8Bytes s).length

/-- 64-bit FNV-1a (`hash/fnv`, `New64a`). -/
def fnv64a (bytes : List Nat) : Nat :=
  bytes.foldl (fun h b => ((h ^^^ b) * 1099511628211) % 2 ^ 64)
    14695981039346656037

/-- the `Hashable` implementations (`HashKey()` methods); `none` = the
object does not implement `Hashable`. -/
def hashKeyOf {F : Type} : Obj F → Option HashKey
  | .boolean b => some ⟨BOOLEAN_OBJ, if b then 1 else 0⟩
  | .integer i => some ⟨INTEGER_OBJ, ((i % 2 ^ 64 + 2 ^ 64) % 2 ^ 64).toNat⟩
  | .string s => some ⟨STRING_OBJ, fnv64a (utf8Bytes s)⟩
  | _ => none

/-! ## Evaluator helpers (the non-recursive functions of the evaluator
package) -/

/-- `int64` wraparound. -/
def wrap64 (x : Int) : Int := (x + 2 ^ 63) % 2 ^ 64 - 2 ^ 63

/-- `nativeBoolToBooleanObject` (returns the `TRUE`/`FALSE`
singletons). -/
def nativeBoolToBooleanObject {F : Type} (input : Bool) : Obj F :=
  .boolean input

/-- `isError` (a nil object is not an error). -/
def isError {F : Type} : GoVal F → Bool
  | some (.error _) => true
  | _ => false

/-- `isTruthy`. The Go code first switches on the `NULL`/`TRUE`/`FALSE`
singleton pointers, then on `Type()`; every boolean and null object in
the evaluator is one of the singletons, so matching values is exact. -/
def isTruthy {F : Type} (FM : FloatModel F) : Obj F → Bool
  | .null => false
  | .boolean b => b
  | .integer v => v != 0
  | .float g => ! FM.beq g FM.zero
  | .string s => s != ""
  | _ => true

/-- `evalBangOperatorExpression`: the switch is over the singleton
pointers only, so a Go-nil operand (and every non-singleton object)
falls to the default `FALSE` without being dereferenced. -/
def evalBangOperatorExpression {F : Type} : GoVal F → Obj F
  | some (.boolean true) => .boolean false
  | some (.boolean false) => .boolean true
  | some .null => .boolean true
  | _ => .boolean false

/-- `evalMinusPrefixOperatorExpression`. -/
def evalMinusPrefixOperatorExpression {F : Type} (FM : FloatModel F) :
    Obj F → Obj F
  | .integer v => .integer (wrap64 (-v))
  | .float v => .float (FM.neg v)
  | o => .error ("operador de prefijo desconocido: -" ++ typeOf o)

/-- `evalPrefixExpression` (`none` = Go panic: the `-` branch and the
unknown-operator branch call `right.Type()` on a possibly nil value). -/
def evalPrefixExpression {F : Type} (FM : FloatModel F)
    (operator : String) (right : GoVal F) : Option (Obj F) :=
  if operator = "!" then some (evalBangOperatorExpression right)
  else if operator = "-" then
    match right with
    | none => none
    | some r => some (evalMinusPrefixOperatorExpression FM r)
  else
    match right with
    | none => none
    | some r =>
      some (.error ("operador de prefijo desconocido: " ++ operator ++
        typeOf r))

/-- the `^` loop of `evalIntegerInfixExpression`
(`result := 1; for i := 0; i < rightVal; i++ { result *= leftVal }`,
each multiplication wrapping as `int64`). -/
def powLoopInt (leftVal : Int) : Nat → Int
  | 0 => 1
  | n + 1 => wrap64 (powLoopInt leftVal n * leftVal)

/-- `evalIntegerInfixExpression`, after the two `.Value` extractions
(the Go function is only called with two `*object.Integer`). -/
def evalIntegerInfixExpression {F : Type} (operator : String)
    (leftVal rightVal : Int) : Obj F :=
  if operator = "+" then .integer (wrap64 (leftVal + rightVal))
  else if operator = "-" then .integer (wrap64 (leftVal - rightVal))
  else if operator = "*" then .integer (wrap64 (leftVal * rightVal))
  else if operator = "/" then
    if rightVal = 0 then .error "división por cero"
    else .integer (wrap64 (Int.tdiv leftVal rightVal))
  else if operator = "%" then
    if rightVal = 0 then .error "módulo por cero"
    else .integer (Int.tmod leftVal rightVal)
  else if operator = "^" then .integer (powLoopInt leftVal rightVal.toNat)
  else if operator = "<" then nativeBoolToBooleanObject (leftVal < rightVal)
  else if operator = ">" then nativeBoolToBooleanObject (rightVal < leftVal)
  else if operator = "==" then nativeBoolToBooleanObject (leftVal == rightVal)
  else if operator = "!=" then nativeBoolToBooleanObject (leftVal != rightVal)
  else .error ("operador desconocido: " ++ INTEGER_OBJ ++ " " ++ operator ++
    " " ++ INTEGER_OBJ)

/-- `evalFloatInfixExpression`, after the two `.Value` extractions.
`none` models the Go runtime panic in the `%` branch: when the float
guard `rightVal == 0` passes but `int64(rightVal)` is `0` (any
`0 < |rightVal| < 1`), the Go expression
`int64(leftVal) % int64(rightVal)` divides by integer zero and the
interpreter crashes. -/
def evalFloatInfixExpression {F : Type} (FM : FloatModel F)
    (operator : String) (leftVal rightVal : F) : Option (Obj F) :=
  if operator = "+" then some (.float (FM.add leftVal rightVal))
  else if operator = "-" then some (.float (FM.sub leftVal rightVal))
  else if operator = "*" then some (.float (FM.mul leftVal rightVal))
  else if operator = "/" then
    if FM.beq rightVal FM.zero then some (.error "división por cero")
    else some (.float (FM.div leftVal rightVal))
  else if operator = "%" then
    if FM.beq rightVal FM.zero then some (.error "módulo por cero")
    else if FM.toInt rightVal = 0 then none
    else some (.float (FM.ofInt (Int.tmod (FM.toInt leftVal)
      (FM.toInt rightVal))))
  else if operator = "^" then some (.float (FM.fpow leftVal rightVal))
  else if operator = "<" then
    some (nativeBoolToBooleanObject (FM.lt leftVal rightVal))
  else if operator = ">" then
    some (nativeBoolToBooleanObject (FM.lt rightVal leftVal))
  else if operator = "==" then
    some (nativeBoolToBooleanObject (FM.beq leftVal rightVal))
  else if operator = "!=" then
    some (nativeBoolToBooleanObject (! FM.beq leftVal rightVal))
  else some (.error ("operador desconocido: " ++ FLOAT_OBJ ++ " " ++
    operator ++ " " ++ FLOAT_OBJ))

/-- `evalStringInfixExpression`, after the two `.Value` extractions. -/
def evalStringInfixExpression {F : Type} (operator : String)
    (leftVal rightVal : String) : Obj F :=
  if operator = "+" then .string (leftVal ++ rightVal)
  else if operator = "==" then nativeBoolToBooleanObject (leftVal == rightVal)
  else if operator = "!=" then nativeBoolToBooleanObject (leftVal != rightVal)
  else .error ("operador desconocido: " ++ STRING_OBJ ++ " " ++ operator ++
    " " ++ STRING_OBJ)

/-- `evalLogicalAndOperator`. -/
def evalLogicalAndOperator {F : Type} (FM : FloatModel F)
    (left right : Obj F) : Obj F :=
  if ! isTruthy FM left then left else right

/-- `evalLogicalOrOperator`. -/
def evalLogicalOrOperator {F : Type} (FM : FloatModel F)
    (left right : Obj F) : Obj F :=
  if isTruthy FM left then left else right

/-- Go interface equality `left == right` as the fallthrough `==`/`!=`
cases of `evalInfixExpression` can observe it: operands of different
dynamic types are unequal; booleans and nulls are singletons (value
equality = pointer equality); heap objects compare by allocation
identity. Pairs of integers, floats or strings never reach this
function (earlier switch cases intercept them), and neither do errors or
return sentinels (`Eval` intercepts them); for those the catch-all
returns `false`. -/
def objEq {F : Type} : Obj F → Obj F → Bool
  | .boolean a, .boolean b => a == b
  | .null, .null => true
  | .array i _, .array j _ => i == j
  | .hash i _, .hash j _ => i == j
  | .function f, .function g => f.id == g.id
  | .classObj c, .classObj d => c.id == d.id
  | .instanceObj h, .instanceObj k => h == k
  | .builtin a, .builtin b => a == b
  | _, _ => false

/-- `evalInfixExpression` (`none` = Go panic: the very first case test
calls `left.Type()` and `right.Type()`, so a nil operand crashes; the
float `%` panic propagates from `evalFloatInfixExpression`). -/
def evalInfixExpression {F : Type} (FM : FloatModel F) (operator : String)
    (left right : GoVal F) : Option (Obj F) :=
  match left, right with
  | none, _ => none
  | _, none => none
  | some l, some r =>
    match l, r with
    | .integer a, .integer b =>
      some (evalIntegerInfixExpression operator a b)
    | .float a, .float b => evalFloatInfixExpression FM operator a b
    | .integer a, .float b =>
      evalFloatInfixExpression FM operator (FM.ofInt a) b
    | .float a, .integer b =>
      evalFloatInfixExpression FM operator a (FM.ofInt b)
    | .string a, .string b =>
      some (evalStringInfixExpression operator a b)
    | l, r =>
      if operator = "==" then some (nativeBoolToBooleanObject (objEq l r))
      else if operator = "!=" then
        some (nativeBoolToBooleanObject (! objEq l r))
      else if operator = "y" then some (evalLogicalAndOperator FM l r)
      else if operator = "o" then some (evalLogicalOrOperator FM l r)
      else if typeOf l ≠ typeOf r then
        some (.error ("tipo de operando no válido: " ++ typeOf l ++ " " ++
          operator ++ " " ++ typeOf r))
      else
        some (.error ("operador desconocido: " ++ typeOf l ++ " " ++
          operator ++ " " ++ typeOf r))

/-- `evalArrayIndexExpression`, after the two extractions (`max` is
`int64(len(elements) - 1)`). -/
def evalArrayIndexExpression {F : Type} (elements : List (GoVal F))
    (idx : Int) : GoVal F :=
  let mx : Int := (elements.length : Int) - 1
  if idx < 0 ∨ idx > mx then some .null
  else elements.getD idx.toNat none

/-- `evalHashIndexExpression` (`none` = Go panic: a nil index fails the
`Hashable` assertion and the error formatter then calls
`index.Type()`). -/
def evalHashIndexExpression {F : Type}
    (pairs : List (HashKey × Obj F × Option (Obj F))) (index : GoVal F) :
    Option (GoVal F) :=
  match index with
  | none => none
  | some ix =>
    match hashKeyOf ix with
    | none =>
      some (some (.error ("clave no utilizable como hash: " ++ typeOf ix)))
    | some k =>
      match getAssoc pairs k with
      | none => some (some .null)
      | some (_, v) => some v

/-- `evalIndexExpression` (`none` = Go panic on a nil receiver). -/
def evalIndexExpression {F : Type} (left index : GoVal F) :
    Option (GoVal F) :=
  match left with
  | none => none
  | some l =>
    match l, index with
    | .array _ elements, some (.integer i) =>
      some (evalArrayIndexExpression elements i)
    | .hash _ pairs, ix => evalHashIndexExpression pairs ix
    | _, _ =>
      some (some (.error ("operador de índice no soportado: " ++ typeOf l)))

/-- `evalDotExpression`. On a method hit it builds the bound method: a
fresh `*object.Function` (fresh allocation id) whose environment is a
fresh scope enclosing the instance's own environment, with `esto` bound
to the instance. `none` = Go panic (property access on a nil object
formats `obj.Type()`); the instance-heap lookup never fails for handles
the evaluator created. -/
def evalDotExpression {F : Type} (s : Store F) (objv : GoVal F)
    (property : String) : Option (GoVal F × Store F) :=
  match objv with
  | none => none
  | some (.instanceObj ih) =>
    match s.instances.get? ih with
    | none => none
    | some inst =>
      match getAssoc inst.properties property with
      | some val => some (val, s)
      | none =>
        match getAssoc inst.cls.methods property with
        | some method =>
          let fid := s.nextId
          let s1 : Store F := { s with nextId := s.nextId + 1 }
          let meh := s1.scopes.length
          let s2 : Store F := { s1 with scopes := s1.scopes ++
            [⟨[("esto", some (.instanceObj ih))], some inst.env⟩] }
          some (some (.function
            ⟨fid, method.parameters, method.body, meh, method.name⟩), s2)
        | none =>
          some (some (.error ("propiedad o método no encontrado: " ++
            property)), s)
  | some (.string v) =>
    if property = "longitud" then some (some (.integer (utf8Len v)), s)
    else
      some (some (.error ("propiedad no encontrada en string: " ++
        property)), s)
  | some (.array _ elements) =>
    if property = "longitud" then
      some (some (.integer (elements.length : Int)), s)
    else
      some (some (.error ("propiedad no encontrada en array: " ++
        property)), s)
  | some o =>
    some (some (.error ("acceso a propiedad no soportado para: " ++
      typeOf o)), s)

/-- the parameter-binding loop of `extendFunctionEnv` (`Set` each
parameter to the positional argument, or to `NULL` when missing). -/
def paramBindings {F : Type} (args : List (GoVal F)) :
    List Identifier → Nat → List (String × GoVal F) →
    List (String × GoVal F)
  | [], _, acc => acc
  | prm :: rest, idx, acc =>
    let v : GoVal F :=
      if idx < args.length then args.getD idx none else some .null
    paramBindings args rest (idx + 1) (setAssoc acc prm.value v)

/-- `extendFunctionEnv`: a fresh scope enclosing the function's captured
environment, with the parameters bound. -/
def extendFunctionEnv {F : Type} (s : Store F) (fn : FunctionData F)
    (args : List (GoVal F)) : Nat × Store F :=
  (s.scopes.length, { s with scopes := s.scopes ++
    [⟨paramBindings args fn.parameters 0 [], some fn.env⟩] })

/-- `unwrapReturnValue`. -/
def unwrapReturnValue {F : Type} : GoVal F → GoVal F
  | some (.returnValue v) => v
  | v => v

/-- the `builtins` table (as a lookup by name; the two entries are
`longitud` and `mostrar`). -/
def builtinsLookup {F : Type} (name : String) : Option (Obj F) :=
  if name = "longitud" ∨ name = "mostrar" then some (.builtin name)
  else none

/-- `evalIdentifier`. -/
def evalIdentifier {F : Type} (s : Store F) (env : Nat) (name : String) :
    GoVal F :=
  match envGet s env name with
  | some val => val
  | none =>
    match builtinsLookup name with
    | some b => some b
    | none => some (.error ("identificador no encontrado: " ++ name))

/-- the bodies of the two builtins (`Builtin.Fn`). `none` = Go panic:
`longitud` type-switches on a nil argument and formats its `Type()`;
`mostrar` calls `Inspect()` on each argument. `mostrar`'s printing is
not modelled; its result is `NULL`. -/
def applyBuiltin {F : Type} (name : String) (args : List (GoVal F)) :
    Option (GoVal F) :=
  if name = "longitud" then
    if args.length ≠ 1 then
      some (some (.error
        ("número incorrecto de argumentos para 'longitud': se esperaba 1, se obtuvo "
          ++ toString args.length)))
    else
      match args with
      | [some (.string s)] => some (some (.integer (utf8Len s)))
      | [some (.array _ es)] => some (some (.integer (es.length : Int)))
      | [some o] =>
        some (some (.error
          ("argumento para 'longitud' no soportado, se obtuvo " ++ typeOf o)))
      | _ => none
  else if name = "mostrar" then
    if args.any (fun a => a.isNone) then none
    else some (some .null)
  else none

/-! ## The evaluator (`Eval` and its recursive helpers)

`Eval` dispatches on the node kind; here the dispatch is split along the
`Stmt`/`Expr`/`Block` node families (Go's `Statement`/`Expression`
marker interfaces). Every function consumes one unit of fuel on entry
and threads the `Store`; `none` = fuel exhausted or Go panic.

Loop bodies that Go writes with a mutable local (`result`) carry that
local as a final accumulator argument; callers pass the Go initial value
(`nil` for statement lists, `NULL` for `while`/`for` loops). -/

abbrev EvalRes (F : Type) := Option (GoVal F × Store F)

/-- the method-construction loop of `evalClassLiteral`: for each method,
a fresh enclosing scope over the declaring environment
(`NewEnclosedEnvironment(env)`) and a fresh `*object.Function`
(fresh allocation id); map insert by method name. Not recursive into
`Eval`. -/
def buildClassMethods {F : Type} :
    List (FnLitData F) → Nat → Store F →
    List (String × FunctionData F) → List (String × FunctionData F) × Store F
  | [], _, s, acc => (acc, s)
  | m :: rest, env, s, acc =>
    let meh := s.scopes.length
    let s1 : Store F := { s with scopes := s.scopes ++ [⟨[], some env⟩] }
    let fid := s1.nextId
    let s2 : Store F := { s1 with nextId := fid + 1 }
    buildClassMethods rest env s2
      (setAssoc acc m.name ⟨fid, m.parameters, m.body, meh, m.name⟩)

/-- the instance-construction prefix of `evalNewExpression`: fresh
instance environment enclosing the current one, fresh instance with
`esto` bound in its environment, class property defaults copied into the
instance (shallow; the class property map was built by `setAssoc`, so
the copy in iteration order is the list itself). Returns the instance
handle. -/
def newInstanceSetup {F : Type} (s : Store F) (env : Nat)
    (c : ClassData F) : Nat × Store F :=
  let (ieh, s1) := s.allocScope ⟨[], some env⟩
  let (ih, s2) := s1.allocInstance ⟨c, [], ieh⟩
  let s3 := s2.setBinding ieh "esto" (some (.instanceObj ih))
  let s4 := s3.setInstance ih ⟨c, c.properties, ieh⟩
  (ih, s4)

/-- the constructor-parameter loop of `evalNewExpression`: parameters
are bound positionally and, unlike `extendFunctionEnv`, missing ones are
left unbound. -/
def ctorParamBindings {F : Type} (args : List (GoVal F)) :
    List Identifier → Nat → List (String × GoVal F) →
    List (String × GoVal F)
  | [], _, acc => acc
  | prm :: rest, idx, acc =>
    if idx < args.length then
      ctorParamBindings args rest (idx + 1)
        (setAssoc acc prm.value (args.getD idx none))
    else ctorParamBindings args rest (idx + 1) acc

/-- the constructor-environment construction of `evalNewExpression`:
fresh scope enclosing the constructor's captured environment, `esto`
bound to the instance, then the parameters. -/
def ctorEnvSetup {F : Type} (s : Store F) (ih : Nat)
    (ctor : FunctionData F) (args : List (GoVal F)) : Nat × Store F :=
  s.allocScope ⟨ctorParamBindings args ctor.parameters 0
    [("esto", some (.instanceObj ih))], some ctor.env⟩

section EvalDefs

variable {F : Type} (FM : FloatModel F)

mutual

/-- `Eval` on expression nodes. -/
def EvalExpr (fuel : Nat) (e : Expr F) (env : Nat) (s : Store F) :
    EvalRes F :=
  match fuel with
  | 0 => none
  | fuel + 1 =>
    match e with
    | .ident _ value => some (evalIdentifier s env value, s)
    | .integerLit _ v => some (some (.integer v), s)
    | .floatLit _ v => some (some (.float v), s)
    | .stringLit _ v => some (some (.string v), s)
    | .booleanLit _ v => some (some (nativeBoolToBooleanObject v), s)
    | .nullLit _ => some (some .null, s)
    | .prefixE _ operator right =>
      match EvalOpt fuel right env s with
      | none => none
      | some (r, s1) =>
        if isError r then some (r, s1)
        else
          match evalPrefixExpression FM operator r with
          | none => none
          | some v => some (some v, s1)
    | .infixE _ left operator right =>
      match EvalOpt fuel left env s with
      | none => none
      | some (l, s1) =>
        if isError l then some (l, s1)
        else
          match EvalOpt fuel right env s1 with
          | none => none
          | some (r, s2) =>
            if isError r then some (r, s2)
            else
              match evalInfixExpression FM operator l r with
              | none => none
              | some v => some (some v, s2)
    | .ifE _ condition consequence alternative =>
      EvalIfExpression fuel condition consequence alternative env s
    | .whileE _ condition body =>
      EvalWhileExpression fuel condition body env s (some .null)
    | .forE _ init condition update body =>
      EvalForExpression fuel init condition update body env s
    | .functionLit d =>
      some (some (.function ⟨s.nextId, d.parameters, d.body, env, d.name⟩),
        { s with nextId := s.nextId + 1 })
    | .callE _ function args =>
      match EvalOpt fuel function env s with
      | none => none
      | some (fn, s1) =>
        if isError fn then some (fn, s1)
        else
          match EvalExprList fuel args env s1 with
          | none => none
          | some (argv, s2) =>
            if argv.length = 1 ∧ isError (argv.getD 0 none) then
              some (argv.getD 0 none, s2)
            else applyFunction fuel fn argv s2
    | .arrayLit _ elements =>
      match EvalExprList fuel elements env s with
      | none => none
      | some (elems, s1) =>
        if elems.length = 1 ∧ isError (elems.getD 0 none) then
          some (elems.getD 0 none, s1)
        else
          some (some (.array s1.nextId elems),
            { s1 with nextId := s1.nextId + 1 })
    | .indexE _ left index =>
      match EvalOpt fuel left env s with
      | none => none
      | some (l, s1) =>
        if isError l then some (l, s1)
        else
          match EvalOpt fuel index env s1 with
          | none => none
          | some (ix, s2) =>
            if isError ix then some (ix, s2)
            else
              match evalIndexExpression l ix with
              | none => none
              | some v => some (v, s2)
    | .hashLit _ pairs =>
      match EvalPairsLoop fuel pairs env s [] with
      | none => none
      | some (.inl err, s1) => some (err, s1)
      | some (.inr prs, s1) =>
        some (some (.hash s1.nextId prs), { s1 with nextId := s1.nextId + 1 })
    | .dotE _ obj property =>
      match EvalOpt fuel obj env s with
      | none => none
      | some (o, s1) =>
        if isError o then some (o, s1)
        else
          match evalDotExpression s1 o property.value with
          | none => none
          | some (v, s2) => some (v, s2)
    | .classLit _ name _parent _interfaces properties methods =>
      EvalClassLiteral fuel name properties methods env s
    | .newE _ cls args => EvalNewExpression fuel cls args env s

termination_by structural fuel

/-- `Eval` on a nilable expression: `Eval(nil, env)` matches no switch
case and returns `NULL`. -/
def EvalOpt (fuel : Nat) (e : Option (Expr F)) (env : Nat) (s : Store F) :
    EvalRes F :=
  match fuel with
  | 0 => none
  | fuel + 1 =>
    match e with
    | none => some (some .null, s)
    | some ex => EvalExpr fuel ex env s

termination_by structural fuel

/-- `Eval` on statement nodes. `letNil` is the Go typed-nil
`*LetStatement`: its case matches and dereferences the nil pointer
(panic). -/
def EvalStmt (fuel : Nat) (st : Stmt F) (env : Nat) (s : Store F) :
    EvalRes F :=
  match fuel with
  | 0 => none
  | fuel + 1 =>
    match st with
    | .letS d =>
      match EvalOpt fuel d.value env s with
      | none => none
      | some (val, s1) =>
        if isError val then some (val, s1)
        else some (val, s1.setBinding env d.name.value val)
    | .letNil => none
    | .returnS _ rv =>
      match EvalOpt fuel rv env s with
      | none => none
      | some (val, s1) =>
        if isError val then some (val, s1)
        else some (some (.returnValue val), s1)
    | .exprS _ e => EvalOpt fuel e env s
    | .blockS b => EvalBlock fuel b env s

termination_by structural fuel

/-- `evalProgram` (statement loop; `acc` is the running `result`,
initially Go nil). A `ReturnValue` is unwrapped, an `Error` returned as
is. -/
def EvalProgramList (fuel : Nat) (stmts : List (Stmt F)) (env : Nat)
    (s : Store F) (acc : GoVal F) : EvalRes F :=
  match fuel with
  | 0 => none
  | fuel + 1 =>
    match stmts with
    | [] => some (acc, s)
    | st :: rest =>
      match EvalStmt fuel st env s with
      | none => none
      | some (result, s1) =>
        match result with
        | some (.returnValue v) => some (v, s1)
        | some (.error m) => some (some (.error m), s1)
        | _ => EvalProgramList fuel rest env s1 result

termination_by structural fuel

/-- `evalBlockStatement` (statement loop; `acc` is the running `result`,
initially Go nil). `ReturnValue` and `Error` results propagate
unchanged. -/
def EvalBlockList (fuel : Nat) (stmts : List (Stmt F)) (env : Nat)
    (s : Store F) (acc : GoVal F) : EvalRes F :=
  match fuel with
  | 0 => none
  | fuel + 1 =>
    match stmts with
    | [] => some (acc, s)
    | st :: rest =>
      match EvalStmt fuel st env s with
      | none => none
      | some (result, s1) =>
        match result with
        | some (.returnValue v) => some (some (.returnValue v), s1)
        | some (.error m) => some (some (.error m), s1)
        | _ => EvalBlockList fuel rest env s1 result

termination_by structural fuel

/-- `Eval` on a `BlockStatement` node. -/
def EvalBlock (fuel : Nat) (b : Block F) (env : Nat) (s : Store F) :
    EvalRes F :=
  match fuel with
  | 0 => none
  | fuel + 1 =>
    match b with
    | .mk _ stmts => EvalBlockList fuel stmts env s none

termination_by structural fuel

/-- `evalExpressions`: left-to-right; on the first error the result is
the singleton list holding it (list elements are never errors
otherwise, so the singleton-error check below is unambiguous). -/
def EvalExprList (fuel : Nat) (exprs : List (Option (Expr F))) (env : Nat)
    (s : Store F) : Option (List (GoVal F) × Store F) :=
  match fuel with
  | 0 => none
  | fuel + 1 =>
    match exprs with
    | [] => some ([], s)
    | e :: rest =>
      match EvalOpt fuel e env s with
      | none => none
      | some (v, s1) =>
        if isError v then some ([v], s1)
        else
          match EvalExprList fuel rest env s1 with
          | none => none
          | some (vs, s2) =>
            if vs.length = 1 ∧ isError (vs.getD 0 none) then some (vs, s2)
            else some (v :: vs, s2)

termination_by structural fuel

/-- `applyFunction` (`none` on a nil callee: the default branch formats
`fn.Type()`). -/
def applyFunction (fuel : Nat) (fn : GoVal F) (args : List (GoVal F))
    (s : Store F) : EvalRes F :=
  match fuel with
  | 0 => none
  | fuel + 1 =>
    match fn with
    | some (.function f) =>
      let es := extendFunctionEnv s f args
      match EvalBlock fuel f.body es.1 es.2 with
      | none => none
      | some (evaluated, s2) => some (unwrapReturnValue evaluated, s2)
    | some (.builtin name) =>
      match applyBuiltin name args with
      | none => none
      | some v => some (v, s)
    | some o => some (some (.error ("no es una función: " ++ typeOf o)), s)
    | none => none

termination_by structural fuel

/-- `evalIfExpression` (a Go-nil condition value panics inside
`isTruthy`). -/
def EvalIfExpression (fuel : Nat) (condition : Option (Expr F))
    (consequence : Block F) (alternative : Option (Block F)) (env : Nat)
    (s : Store F) : EvalRes F :=
  match fuel with
  | 0 => none
  | fuel + 1 =>
    match EvalOpt fuel condition env s with
    | none => none
    | some (cond, s1) =>
      if isError cond then some (cond, s1)
      else
        match cond with
        | none => none
        | some c =>
          if isTruthy FM c then EvalBlock fuel consequence env s1
          else
            match alternative with
            | some alt => EvalBlock fuel alt env s1
            | none => some (some .null, s1)

termination_by structural fuel

/-- `evalWhileExpression` (`acc` is the running `result`, initially
`NULL`; a body `ReturnValue` propagates out of the loop). -/
def EvalWhileExpression (fuel : Nat) (condition : Option (Expr F))
    (body : Block F) (env : Nat) (s : Store F) (acc : GoVal F) :
    EvalRes F :=
  match fuel with
  | 0 => none
  | fuel + 1 =>
    match EvalOpt fuel condition env s with
    | none => none
    | some (cond, s1) =>
      if isError cond then some (cond, s1)
      else
        match cond with
        | none => none
        | some c =>
          if ! isTruthy FM c then some (acc, s1)
          else
            match EvalBlock fuel body env s1 with
            | none => none
            | some (result, s2) =>
              if isError result then some (result, s2)
              else
                match result with
                | some (.returnValue v) => some (some (.returnValue v), s2)
                | _ => EvalWhileExpression fuel condition body env s2 result

termination_by structural fuel

/-- `evalForExpression`: fresh loop scope, optional init, then the
loop. -/
def EvalForExpression (fuel : Nat) (init : Option (Stmt F))
    (condition : Option (Expr F)) (update : Option (Stmt F))
    (body : Block F) (env : Nat) (s : Store F) : EvalRes F :=
  match fuel with
  | 0 => none
  | fuel + 1 =>
    let les := s.allocScope ⟨[], some env⟩
    match init with
    | some st =>
      match EvalStmt fuel st les.1 les.2 with
      | none => none
      | some (ir, s1) =>
        if isError ir then some (ir, s1)
        else EvalForLoop fuel condition update body les.1 s1 (some .null)
    | none => EvalForLoop fuel condition update body les.1 les.2 (some .null)

termination_by structural fuel

/-- the loop of `evalForExpression` (`acc` is the running `result`; an
absent condition never breaks). -/
def EvalForLoop (fuel : Nat) (condition : Option (Expr F))
    (update : Option (Stmt F)) (body : Block F) (env : Nat) (s : Store F)
    (acc : GoVal F) : EvalRes F :=
  match fuel with
  | 0 => none
  | fuel + 1 =>
    match condition with
    | some ce =>
      match EvalExpr fuel ce env s with
      | none => none
      | some (cond, s1) =>
        if isError cond then some (cond, s1)
        else
          match cond with
          | none => none
          | some c =>
            if ! isTruthy FM c then some (acc, s1)
            else EvalForBody fuel condition update body env s1
    | none => EvalForBody fuel condition update body env s

termination_by structural fuel

/-- the body-update tail of one `for` iteration. -/
def EvalForBody (fuel : Nat) (condition : Option (Expr F))
    (update : Option (Stmt F)) (body : Block F) (env : Nat)
    (s : Store F) : EvalRes F :=
  match fuel with
  | 0 => none
  | fuel + 1 =>
    match EvalBlock fuel body env s with
    | none => none
    | some (result, s1) =>
      if isError result then some (result, s1)
      else
        match result with
        | some (.returnValue v) => some (some (.returnValue v), s1)
        | _ =>
          match update with
          | some ust =>
            match EvalStmt fuel ust env s1 with
            | none => none
            | some (ur, s2) =>
              if isError ur then some (ur, s2)
              else EvalForLoop fuel condition update body env s2 result
          | none => EvalForLoop fuel condition update body env s1 result

termination_by structural fuel

/-- the pair loop of `evalHashLiteral` (`Sum.inl` = early return of an
error value; a Go-nil key fails the `Hashable` assertion and the error
formatter panics on `key.Type()`). -/
def EvalPairsLoop (fuel : Nat)
    (pairs : List (Option (Expr F) × Option (Expr F))) (env : Nat)
    (s : Store F) (acc : List (HashKey × Obj F × GoVal F)) :
    Option ((GoVal F ⊕ List (HashKey × Obj F × GoVal F)) × Store F) :=
  match fuel with
  | 0 => none
  | fuel + 1 =>
    match pairs with
    | [] => some (.inr acc, s)
    | (kE, vE) :: rest =>
      match EvalOpt fuel kE env s with
      | none => none
      | some (k, s1) =>
        if isError k then some (.inl k, s1)
        else
          match k with
          | none => none
          | some kv =>
            match hashKeyOf kv with
            | none =>
              some (.inl (some (.error ("clave no utilizable como hash: " ++
                typeOf kv))), s1)
            | some hk =>
              match EvalOpt fuel vE env s1 with
              | none => none
              | some (v, s2) =>
                if isError v then some (.inl v, s2)
                else EvalPairsLoop fuel rest env s2 (setAssoc acc hk (kv, v))

termination_by structural fuel

/-- the property loop of `evalClassLiteral` (`Sum.inl` = early return of
an error value; a nil `*LetStatement` member dereferences its `Value`
field — panic). -/
def EvalClassPropsLoop (fuel : Nat)
    (properties : List (Option (LetData F))) (env : Nat) (s : Store F)
    (acc : List (String × GoVal F)) :
    Option ((GoVal F ⊕ List (String × GoVal F)) × Store F) :=
  match fuel with
  | 0 => none
  | fuel + 1 =>
    match properties with
    | [] => some (.inr acc, s)
    | none :: _ => none
    | some d :: rest =>
      match EvalOpt fuel d.value env s with
      | none => none
      | some (v, s1) =>
        if isError v then some (.inl v, s1)
        else
          EvalClassPropsLoop fuel rest env s1 (setAssoc acc d.name.value v)

termination_by structural fuel

/-- `evalClassLiteral`: fresh class allocation id, property defaults
evaluated in the declaring environment, methods recorded over fresh
enclosing scopes, and the class bound under its name as a side
effect. -/
def EvalClassLiteral (fuel : Nat) (name : Identifier)
    (properties : List (Option (LetData F))) (methods : List (FnLitData F))
    (env : Nat) (s : Store F) : EvalRes F :=
  match fuel with
  | 0 => none
  | fuel + 1 =>
    let cid := s.nextId
    let s0 : Store F := { s with nextId := cid + 1 }
    match EvalClassPropsLoop fuel properties env s0 [] with
    | none => none
    | some (.inl err, s1) => some (err, s1)
    | some (.inr props, s1) =>
      let ms := buildClassMethods methods env s1 []
      let cls : ClassData F := ⟨cid, name.value, none, props, ms.1⟩
      some (some (.classObj cls),
        (ms.2).setBinding env name.value (some (.classObj cls)))

termination_by structural fuel

/-- `evalNewExpression`. The instance (with `esto` installed and the
property defaults copied) is created before the constructor lookup; with
a constructor, the arguments are evaluated in the caller's environment,
the constructor environment is built over the constructor's captured
environment, the body runs, and its result — error or not — is
discarded. -/
def EvalNewExpression (fuel : Nat) (cls : Option (Expr F))
    (args : List (Option (Expr F))) (env : Nat) (s : Store F) :
    EvalRes F :=
  match fuel with
  | 0 => none
  | fuel + 1 =>
    match EvalOpt fuel cls env s with
    | none => none
    | some (cv, s1) =>
      if isError cv then some (cv, s1)
      else
        match cv with
        | some (.classObj c) =>
          let setup := newInstanceSetup s1 env c
          match getAssoc c.methods "crear" with
          | some ctor =>
            match EvalExprList fuel args env setup.2 with
            | none => none
            | some (argv, s2) =>
              if argv.length = 1 ∧ isError (argv.getD 0 none) then
                some (argv.getD 0 none, s2)
              else
                let ces := ctorEnvSetup s2 setup.1 ctor argv
                match EvalBlock fuel ctor.body ces.1 ces.2 with
                | none => none
                | some (_, s3) => some (some (.instanceObj setup.1), s3)
          | none => some (some (.instanceObj setup.1), setup.2)
        | some o =>
          some (some (.error ("no es una clase: " ++ typeOf o)), s1)
        | none => none


termination_by structural fuel
end

/-- `evalProgram` / the `Eval` case for `*parser.Program`. -/
def EvalProgram (fuel : Nat) (prog : Program F) (env : Nat)
    (s : Store F) : EvalRes F :=
  EvalProgramList FM fuel prog.statements env s none

end EvalDefs

/-! ## Concrete float models for closed witnesses

`intFM` realises the float64 values that are (small) integers: on such
values every operation the claims exercise agrees bit-exactly with
IEEE-754 doubles. `ratFM` realises float64 values that are exact
rationals (dyadic ones such as `0.5` are exactly representable); again
the claim inputs stay within the exact range. The `fpow` loop result is
instantiated with the mathematical power (the loop computes exactly that
whenever it terminates on non-negative integral exponents without
rounding). -/

def intFM : FloatModel Int where
  zero := 0
  ofInt := fun i => i
  toInt := fun i => i
  neg := fun i => -i
  add := fun a b => a + b
  sub := fun a b => a - b
  mul := fun a b => a * b
  div := fun a b => Int.tdiv a b
  beq := fun a b => a == b
  lt := fun a b => a < b
  fpow := fun l r => if r ≤ 0 then 1 else l ^ r.toNat
  parseFloat := fun _ => none

def ratFM : FloatModel ℚ where
  zero := 0
  ofInt := fun i => (i : ℚ)
  toInt := fun q => Int.tdiv q.num (q.den : Int)
  neg := fun q => -q
  add := fun a b => a + b
  sub := fun a b => a - b
  mul := fun a b => a * b
  div := fun a b => a / b
  beq := fun a b => a == b
  lt := fun a b => a < b
  fpow := fun l r => l ^ (max 0 ⌈r⌉).toNat
  parseFloat := fun s =>
    match s.splitOn "." with
    | [a] =>
      match parseIntDigits 10 a.toList with
      | some x => some (x : ℚ)
      | none => none
    | [a, b] =>
      match parseIntDigits 10 a.toList, parseIntDigits 10 b.toList with
      | some x, some y =>
        some ((x : ℚ) + (y : ℚ) / ((10 : ℚ) ^ b.length))
      | _, _ => none
    | _ => none

/-- the empty root store with one global scope
(`object.NewEnvironment`). -/
def rootStore (F : Type) : Store F := ⟨[⟨[], none⟩], [], 0⟩

/-- the rational 1/2 in normal form (`0.5` is exactly representable as a
float64, so on it the exact-rational model agrees with IEEE-754). The
explicit normal form keeps every field kernel-reducible. -/
def oneHalf : ℚ := ⟨1, 2, by decide, Nat.coprime_one_left 2⟩

/-! ## Concrete example programs and stores used by the claims -/

/-- the expression `1 / 0` (tokens zeroed; the evaluator never reads
them). -/
def divByZeroExpr : Expr Int :=
  .infixE zeroToken (some (.integerLit zeroToken 1)) "/"
    (some (.integerLit zeroToken 0))

/-- the expression `verdad o (1/0)`. -/
def orDivExpr : Expr Int :=
  .infixE zeroToken (some (.booleanLit zeroToken true)) "o"
    (some divByZeroExpr)

/-- the expression `falso y (1/0)`. -/
def andDivExpr : Expr Int :=
  .infixE zeroToken (some (.booleanLit zeroToken false)) "y"
    (some divByZeroExpr)

/-- a constructor `crear` whose body is `devolver 1/0;` (always
errors). -/
def crearCtor : FunctionData Int :=
  ⟨1, [], .mk zeroToken [.returnS zeroToken (some divByZeroExpr)], 0,
    "crear"⟩

/-- a class `C` whose constructor always errors. -/
def demoClass : ClassData Int := ⟨0, "C", none, [], [("crear", crearCtor)]⟩

/-- a root store with `C` bound to `demoClass`. -/
def demoStore : Store Int :=
  ⟨[⟨[("C", some (.classObj demoClass))], none⟩], [], 5⟩

/-- a parameterless method `m` with an empty body. -/
def mMethod : FunctionData Int := ⟨2, [], .mk zeroToken [], 1, "m"⟩

/-- a class `D` with the single method `m`. -/
def methClass : ClassData Int := ⟨3, "D", none, [], [("m", mMethod)]⟩

/-- a store holding one instance of `methClass`: scope 1 is the
instance's environment (with `esto` installed at construction), the
instance heap holds the instance record. -/
def instStore : Store Int :=
  ⟨[⟨[], none⟩, ⟨[("esto", some (.instanceObj 0))], some 0⟩],
   [⟨methClass, [], 1⟩], 7⟩

/-- the bound method `evalDotExpression` builds from `instStore` for
`obj.m`: fresh allocation id 7, environment = scope 2 (the fresh `esto`
scope). -/
def mBound : FunctionData Int := ⟨7, [], .mk zeroToken [], 2, "m"⟩

/-- `instStore` after evaluating `obj.m`: the fresh bound-method scope
(`esto` over the instance environment) appended, id counter bumped. -/
def dotStore : Store Int :=
  ⟨[⟨[], none⟩, ⟨[("esto", some (.instanceObj 0))], some 0⟩,
    ⟨[("esto", some (.instanceObj 0))], some 1⟩],
   [⟨methClass, [], 1⟩], 8⟩

/-! ## Store-mutation invariants

Evaluation starting in scope `env` can write bindings only into `env`
itself and into scopes it allocates; every other pre-existing scope, and
every pre-existing instance, is untouched (`Environment.Set` is only
ever called on the evaluation's current scope or on a scope freshly made
by `NewEnclosedEnvironment`). `StoreExt env` captures what one
evaluation step in `env` may do; `StorePres` strengthens it to full
preservation of everything pre-existing (what a call through a fresh
scope does). -/

def StoreExt {F : Type} (env : Nat) (s s' : Store F) : Prop :=
  s.scopes.length ≤ s'.scopes.length ∧
  s.instances.length ≤ s'.instances.length ∧
  (∀ h, h < s.scopes.length → h ≠ env → s'.scopes.get? h = s.scopes.get? h) ∧
  (∀ ih, ih < s.instances.length →
    s'.instances.get? ih = s.instances.get? ih)

def StorePres {F : Type} (s s' : Store F) : Prop :=
  s.scopes.length ≤ s'.scopes.length ∧
  s.instances.length ≤ s'.instances.length ∧
  (∀ h, h < s.scopes.length → s'.scopes.get? h = s.scopes.get? h) ∧
  (∀ ih, ih < s.instances.length →
    s'.instances.get? ih = s.instances.get? ih)

/-! ## Lemmas: list surgery and store-operation effects -/

theorem listModify_length {α : Type} (l : List α) (n : Nat) (f : α → α) :
    (listModify l n f).length = l.length := by
  induction l generalizing n with
  | nil => rfl
  | cons x rest ihl =>
    cases n with
    | zero => rfl
    | succ n => simp [listModify, ihl]

theorem listModify_get?_ne {α : Type} (l : List α) (n m : Nat)
    (f : α → α) (hne : m ≠ n) : (listModify l n f).get? m = l.get? m := by
  induction l generalizing n m with
  | nil => rfl
  | cons x rest ihl =>
    cases n with
    | zero =>
      cases m with
      | zero => exact absurd rfl hne
      | succ m => rfl
    | succ n =>
      cases m with
      | zero => rfl
      | succ m =>
        simpa [listModify] using ihl n m (fun hc => hne (by simp [hc]))

theorem listModify_append_self {α : Type} (l : List α) (x : α)
    (f : α → α) : listModify (l ++ [x]) l.length f = l ++ [f x] := by
  induction l with
  | nil => rfl
  | cons y rest ihl => simp [listModify, ihl]

theorem storeExt_refl {F : Type} (env : Nat) (s : Store F) :
    StoreExt env s s :=
  ⟨le_refl _, le_refl _, fun _ _ _ => rfl, fun _ _ => rfl⟩

theorem storePres_refl {F : Type} (s : Store F) : StorePres s s :=
  ⟨le_refl _, le_refl _, fun _ _ => rfl, fun _ _ => rfl⟩

theorem StorePres.toExt {F : Type} {s s' : Store F} (h : StorePres s s')
    (env : Nat) : StoreExt env s s' :=
  ⟨h.1, h.2.1, fun k hk _ => h.2.2.1 k hk, h.2.2.2⟩

theorem storeExt_trans {F : Type} {env : Nat} {s s' s'' : Store F}
    (h1 : StoreExt env s s') (h2 : StoreExt env s' s'') :
    StoreExt env s s'' := by
  refine ⟨le_trans h1.1 h2.1, le_trans h1.2.1 h2.2.1, ?_, ?_⟩
  · intro k hk hne
    rw [h2.2.2.1 k (lt_of_lt_of_le hk h1.1) hne, h1.2.2.1 k hk hne]
  · intro ik hik
    rw [h2.2.2.2 ik (lt_of_lt_of_le hik h1.2.1), h1.2.2.2 ik hik]

theorem storeExt_trans_fresh {F : Type} {env e2 : Nat} {s s' s'' : Store F}
    (h1 : StoreExt env s s') (h2 : StoreExt e2 s' s'')
    (hfresh : s.scopes.length ≤ e2) : StoreExt env s s'' := by
  refine ⟨le_trans h1.1 h2.1, le_trans h1.2.1 h2.2.1, ?_, ?_⟩
  · intro k hk hne
    rw [h2.2.2.1 k (lt_of_lt_of_le hk h1.1)
      (Nat.ne_of_lt (lt_of_lt_of_le hk hfresh)), h1.2.2.1 k hk hne]
  · intro ik hik
    rw [h2.2.2.2 ik (lt_of_lt_of_le hik h1.2.1), h1.2.2.2 ik hik]

theorem storePres_trans {F : Type} {s s' s'' : Store F}
    (h1 : StorePres s s') (h2 : StorePres s' s'') : StorePres s s'' := by
  refine ⟨le_trans h1.1 h2.1, le_trans h1.2.1 h2.2.1, ?_, ?_⟩
  · intro k hk
    rw [h2.2.2.1 k (lt_of_lt_of_le hk h1.1), h1.2.2.1 k hk]
  · intro ik hik
    rw [h2.2.2.2 ik (lt_of_lt_of_le hik h1.2.1), h1.2.2.2 ik hik]

theorem storePres_trans_fresh {F : Type} {e2 : Nat} {s s' s'' : Store F}
    (h1 : StorePres s s') (h2 : StoreExt e2 s' s'')
    (hfresh : s.scopes.length ≤ e2) : StorePres s s'' := by
  refine ⟨le_trans h1.1 h2.1, le_trans h1.2.1 h2.2.1, ?_, ?_⟩
  · intro k hk
    rw [h2.2.2.1 k (lt_of_lt_of_le hk h1.1)
      (Nat.ne_of_lt (lt_of_lt_of_le hk hfresh)), h1.2.2.1 k hk]
  · intro ik hik
    rw [h2.2.2.2 ik (lt_of_lt_of_le hik h1.2.1), h1.2.2.2 ik hik]

theorem storeExt_setBinding {F : Type} (env : Nat) (s : Store F)
    (name : String) (v : GoVal F) :
    StoreExt env s (s.setBinding env name v) := by
  refine ⟨?_, le_refl _, ?_, fun _ _ => rfl⟩
  · simp [Store.setBinding, listModify_length]
  · intro k hk hne
    simpa [Store.setBinding] using
      listModify_get?_ne s.scopes env k _ hne

theorem storePres_setBinding_ge {F : Type} {env : Nat} (s : Store F)
    (name : String) (v : GoVal F) (hge : s.scopes.length ≤ env) :
    StorePres s (s.setBinding env name v) := by
  refine ⟨?_, le_refl _, ?_, fun _ _ => rfl⟩
  · simp [Store.setBinding, listModify_length]
  · intro k hk
    simpa [Store.setBinding] using
      listModify_get?_ne s.scopes env k _ (Nat.ne_of_lt (lt_of_lt_of_le hk hge))

theorem storePres_nextId {F : Type} (s : Store F) (m : Nat) :
    StorePres s { s with nextId := m } :=
  ⟨le_refl _, le_refl _, fun _ _ => rfl, fun _ _ => rfl⟩

theorem storePres_allocScope {F : Type} (s : Store F) (sc : Scope F) :
    StorePres s { s with scopes := s.scopes ++ [sc] } := by
  refine ⟨by simp, le_refl _, ?_, fun _ _ => rfl⟩
  intro k hk
  exact List.get?_append hk

theorem buildClassMethods_pres {F : Type} (ms : List (FnLitData F))
    (env : Nat) (s : Store F) (acc : List (String × FunctionData F)) :
    StorePres s (buildClassMethods ms env s acc).2 := by
  induction ms generalizing s acc with
  | nil => exact storePres_refl s
  | cons m rest ihm =>
    simp only [buildClassMethods]
    exact storePres_trans (storePres_trans (storePres_allocScope s _)
      (storePres_nextId _ _)) (ihm _ _)

theorem evalDot_pres {F : Type} {s s' : Store F} {o : GoVal F}
    {property : String} {v : GoVal F}
    (h : evalDotExpression s o property = some (v, s')) :
    StorePres s s' := by
  unfold evalDotExpression at h
  split at h <;> try (cases h; exact storePres_refl _)
  · exact absurd h (by simp)
  case _ ihandle =>
    split at h
    · exact absurd h (by simp)
    case _ inst _ =>
      split at h
      · cases h; exact storePres_refl _
      · split at h
        · cases h
          exact storePres_trans (storePres_nextId _ _)
            (storePres_allocScope _ _)
        · cases h; exact storePres_refl _
  · split at h <;> (cases h; exact storePres_refl _)
  · split at h <;> (cases h; exact storePres_refl _)

theorem extendFunctionEnv_spec {F : Type} (s : Store F)
    (fn : FunctionData F) (args : List (GoVal F)) :
    (extendFunctionEnv s fn args).1 = s.scopes.length ∧
    (extendFunctionEnv s fn args).2.scopes =
      s.scopes ++ [⟨paramBindings args fn.parameters 0 [], some fn.env⟩] ∧
    (extendFunctionEnv s fn args).2.instances = s.instances ∧
    (extendFunctionEnv s fn args).2.nextId = s.nextId :=
  ⟨rfl, rfl, rfl, rfl⟩

theorem newInstanceSetup_spec {F : Type} (s : Store F) (env : Nat)
    (c : ClassData F) :
    (newInstanceSetup s env c).1 = s.instances.length ∧
    (newInstanceSetup s env c).2.scopes = s.scopes ++
      [⟨[("esto", some (.instanceObj s.instances.length))], some env⟩] ∧
    (newInstanceSetup s env c).2.instances =
      s.instances ++ [⟨c, c.properties, s.scopes.length⟩] ∧
    (newInstanceSetup s env c).2.nextId = s.nextId := by
  refine ⟨rfl, ?_, ?_, rfl⟩
  · show listModify (s.scopes ++ [⟨[], some env⟩]) s.scopes.length _ = _
    rw [listModify_append_self]
    rfl
  · show listModify (s.instances ++ [⟨c, [], s.scopes.length⟩])
      s.instances.length _ = _
    rw [listModify_append_self]

theorem newInstanceSetup_pres {F : Type} (s : Store F) (env : Nat)
    (c : ClassData F) : StorePres s (newInstanceSetup s env c).2 := by
  obtain ⟨_, h2, h3, _⟩ := newInstanceSetup_spec s env c
  refine ⟨by rw [h2]; simp, by rw [h3]; simp, ?_, ?_⟩
  · intro k hk
    rw [h2]
    exact List.get?_append hk
  · intro ik hik
    rw [h3]
    exact List.get?_append hik

theorem ctorEnvSetup_spec {F : Type} (s : Store F) (ih : Nat)
    (ctor : FunctionData F) (args : List (GoVal F)) :
    (ctorEnvSetup s ih ctor args).1 = s.scopes.length ∧
    (ctorEnvSetup s ih ctor args).2.scopes = s.scopes ++
      [⟨ctorParamBindings args ctor.parameters 0
        [("esto", some (.instanceObj ih))], some ctor.env⟩] ∧
    (ctorEnvSetup s ih ctor args).2.instances = s.instances ∧
    (ctorEnvSetup s ih ctor args).2.nextId = s.nextId :=
  ⟨rfl, rfl, rfl, rfl⟩

theorem ctorEnvSetup_pres {F : Type} (s : Store F) (ih : Nat)
    (ctor : FunctionData F) (args : List (GoVal F)) :
    StorePres s (ctorEnvSetup s ih ctor args).2 :=
  storePres_allocScope s _

/-- the bundled mutation invariant, for every evaluator entry point at a
given fuel: evaluation in scope `env` satisfies `StoreExt env`, and a
function application (which runs in a fresh scope) preserves every
pre-existing scope and instance. -/
structure ExtAll {F : Type} (FM : FloatModel F) (fuel : Nat) : Prop where
  eexpr : ∀ (e : Expr F) env s r s',
    EvalExpr FM fuel e env s = some (r, s') → StoreExt env s s'
  eopt : ∀ (e : Option (Expr F)) env s r s',
    EvalOpt FM fuel e env s = some (r, s') → StoreExt env s s'
  estmt : ∀ (st : Stmt F) env s r s',
    EvalStmt FM fuel st env s = some (r, s') → StoreExt env s s'
  eprog : ∀ (stmts : List (Stmt F)) env s acc r s',
    EvalProgramList FM fuel stmts env s acc = some (r, s') →
    StoreExt env s s'
  eblockL : ∀ (stmts : List (Stmt F)) env s acc r s',
    EvalBlockList FM fuel stmts env s acc = some (r, s') →
    StoreExt env s s'
  eblock : ∀ (b : Block F) env s r s',
    EvalBlock FM fuel b env s = some (r, s') → StoreExt env s s'
  eexprL : ∀ (es : List (Option (Expr F))) env s vs s',
    EvalExprList FM fuel es env s = some (vs, s') → StoreExt env s s'
  eapply : ∀ (fn : GoVal F) args s r s',
    applyFunction FM fuel fn args s = some (r, s') → StorePres s s'
  eif : ∀ (c : Option (Expr F)) cq alt env s r s',
    EvalIfExpression FM fuel c cq alt env s = some (r, s') →
    StoreExt env s s'
  ewhile : ∀ (c : Option (Expr F)) b env s acc r s',
    EvalWhileExpression FM fuel c b env s acc = some (r, s') →
    StoreExt env s s'
  efor : ∀ (i : Option (Stmt F)) c u b env s r s',
    EvalForExpression FM fuel i c u b env s = some (r, s') →
    StoreExt env s s'
  eforLoop : ∀ (c : Option (Expr F)) u b env s acc r s',
    EvalForLoop FM fuel c u b env s acc = some (r, s') →
    StoreExt env s s'
  eforBody : ∀ (c : Option (Expr F)) u b env s r s',
    EvalForBody FM fuel c u b env s = some (r, s') → StoreExt env s s'
  epairs : ∀ (prs : List (Option (Expr F) × Option (Expr F))) env s acc r s',
    EvalPairsLoop FM fuel prs env s acc = some (r, s') → StoreExt env s s'
  eclassProps : ∀ (prs : List (Option (LetData F))) env s acc r s',
    EvalClassPropsLoop FM fuel prs env s acc = some (r, s') →
    StoreExt env s s'
  eclassLit : ∀ (nm : Identifier) prs ms env s r s',
    EvalClassLiteral FM fuel nm prs ms env s = some (r, s') →
    StoreExt env s s'
  enew : ∀ (cls : Option (Expr F)) args env s r s',
    EvalNewExpression FM fuel cls args env s = some (r, s') →
    StoreExt env s s'

theorem extAll_zero {F : Type} (FM : FloatModel F) : ExtAll FM 0 := by
  constructor <;> intros <;>
    simp_all [EvalExpr, EvalOpt, EvalStmt, EvalProgramList, EvalBlockList,
      EvalBlock, EvalExprList, applyFunction, EvalIfExpression,
      EvalWhileExpression, EvalForExpression, EvalForLoop, EvalForBody,
      EvalPairsLoop, EvalClassPropsLoop, EvalClassLiteral,
      EvalNewExpression]

theorem evalOpt_step {F : Type} {FM : FloatModel F} {fuel : Nat}
    (ih : ExtAll FM fuel) :
    ∀ (e : Option (Expr F)) env s r s',
      EvalOpt FM (fuel + 1) e env s = some (r, s') → StoreExt env s s' := by
  intro e env s r s' h
  cases e with
  | none =>
    simp only [EvalOpt] at h
    obtain ⟨rfl, rfl⟩ := Option.some.injEq _ _ ▸ Prod.mk.injEq _ _ _ _ ▸
      (by simpa using h : some Obj.null = r ∧ s = s')
    exact storeExt_refl env s
  | some ex =>
    simp only [EvalOpt] at h
    exact ih.eexpr _ _ _ _ _ h

theorem evalStmt_step {F : Type} {FM : FloatModel F} {fuel : Nat}
    (ih : ExtAll FM fuel) :
    ∀ (st : Stmt F) env s r s',
      EvalStmt FM (fuel + 1) st env s = some (r, s') → StoreExt env s s' := by
  intro st env s r s' h
  cases st with
  | letS d =>
    simp only [EvalStmt] at h
    cases hx : EvalOpt FM fuel d.value env s with
    | none => rw [hx] at h; simp at h
    | some p =>
      obtain ⟨v, s1⟩ := p
      rw [hx] at h
      by_cases he : isError v = true
      · simp only [he, if_true] at h
        obtain ⟨rfl, rfl⟩ := by simpa using h
        exact ih.eopt _ _ _ _ _ hx
      · simp only [he, if_false, Bool.false_eq_true] at h
        obtain ⟨rfl, rfl⟩ := by simpa using h
        exact storeExt_trans (ih.eopt _ _ _ _ _ hx)
          (storeExt_setBinding env s1 _ _)
  | letNil => simp [EvalStmt] at h
  | returnS tok rv =>
    simp only [EvalStmt] at h
    cases hx : EvalOpt FM fuel rv env s with
    | none => rw [hx] at h; simp at h
    | some p =>
      obtain ⟨v, s1⟩ := p
      rw [hx] at h
      by_cases he : isError v = true
      · simp only [he, if_true] at h
        obtain ⟨rfl, rfl⟩ := by simpa using h
        exact ih.eopt _ _ _ _ _ hx
      · simp only [he, if_false, Bool.false_eq_true] at h
        obtain ⟨rfl, rfl⟩ := by simpa using h
        exact ih.eopt _ _ _ _ _ hx
  | exprS tok e =>
    simp only [EvalStmt] at h
    exact ih.eopt _ _ _ _ _ h
  | blockS b =>
    simp only [EvalStmt] at h
    exact ih.eblock _ _ _ _ _ h

theorem evalProgList_step {F : Type} {FM : FloatModel F} {fuel : Nat}
    (ih : ExtAll FM fuel) :
    ∀ (stmts : List (Stmt F)) env s acc r s',
      EvalProgramList FM (fuel + 1) stmts env s acc = some (r, s') →
      StoreExt env s s' := by
  intro stmts env s acc r s' h
  cases stmts with
  | nil =>
    simp only [EvalProgramList] at h
    obtain ⟨rfl, rfl⟩ := by simpa using h
    exact storeExt_refl env s
  | cons st rest =>
    simp only [EvalProgramList] at h
    cases hx : EvalStmt FM fuel st env s with
    | none => rw [hx] at h; simp at h
    | some p =>
      obtain ⟨result, s1⟩ := p
      rw [hx] at h
      have h1 : StoreExt env s s1 := ih.estmt _ _ _ _ _ hx
      cases result with
      | none => exact storeExt_trans h1 (ih.eprog _ _ _ _ _ _ h)
      | some obj =>
        cases obj
        case returnValue =>
          simp only [Option.some.injEq, Prod.mk.injEq] at h
          obtain ⟨rfl, rfl⟩ := h
          exact h1
        case error =>
          simp only [Option.some.injEq, Prod.mk.injEq] at h
          obtain ⟨rfl, rfl⟩ := h
          exact h1
        all_goals exact storeExt_trans h1 (ih.eprog _ _ _ _ _ _ h)

theorem evalBlockList_step {F : Type} {FM : FloatModel F} {fuel : Nat}
    (ih : ExtAll FM fuel) :
    ∀ (stmts : List (Stmt F)) env s acc r s',
      EvalBlockList FM (fuel + 1) stmts env s acc = some (r, s') →
      StoreExt env s s' := by
  intro stmts env s acc r s' h
  cases stmts with
  | nil =>
    simp only [EvalBlockList] at h
    obtain ⟨rfl, rfl⟩ := by simpa using h
    exact storeExt_refl env s
  | cons st rest =>
    simp only [EvalBlockList] at h
    cases hx : EvalStmt FM fuel st env s with
    | none => rw [hx] at h; simp at h
    | some p =>
      obtain ⟨result, s1⟩ := p
      rw [hx] at h
      have h1 : StoreExt env s s1 := ih.estmt _ _ _ _ _ hx
      cases result with
      | none => exact storeExt_trans h1 (ih.eblockL _ _ _ _ _ _ h)
      | some obj =>
        cases obj
        case returnValue =>
          simp only [Option.some.injEq, Prod.mk.injEq] at h
          obtain ⟨rfl, rfl⟩ := h
          exact h1
        case error =>
          simp only [Option.some.injEq, Prod.mk.injEq] at h
          obtain ⟨rfl, rfl⟩ := h
          exact h1
        all_goals exact storeExt_trans h1 (ih.eblockL _ _ _ _ _ _ h)

theorem evalBlock_step {F : Type} {FM : FloatModel F} {fuel : Nat}
    (ih : ExtAll FM fuel) :
    ∀ (b : Block F) env s r s',
      EvalBlock FM (fuel + 1) b env s = some (r, s') → StoreExt env s s' := by
  intro b env s r s' h
  cases b with
  | mk tok stmts =>
    simp only [EvalBlock] at h
    exact ih.eblockL _ _ _ _ _ _ h

theorem evalExprList_step {F : Type} {FM : FloatModel F} {fuel : Nat}
    (ih : ExtAll FM fuel) :
    ∀ (es : List (Option (Expr F))) env s vs s',
      EvalExprList FM (fuel + 1) es env s = some (vs, s') →
      StoreExt env s s' := by
  intro es env s vs s' h
  cases es with
  | nil =>
    simp only [EvalExprList] at h
    obtain ⟨rfl, rfl⟩ := by simpa using h
    exact storeExt_refl env s
  | cons e rest =>
    simp only [EvalExprList] at h
    cases hx : EvalOpt FM fuel e env s with
    | none => rw [hx] at h; simp at h
    | some p =>
      obtain ⟨v, s1⟩ := p
      rw [hx] at h
      have h1 : StoreExt env s s1 := ih.eopt _ _ _ _ _ hx
      by_cases he : isError v = true
      · simp only [he, if_true] at h
        obtain ⟨rfl, rfl⟩ := by simpa using h
        exact h1
      · simp only [he, if_false, Bool.false_eq_true] at h
        cases hy : EvalExprList FM fuel rest env s1 with
        | none => rw [hy] at h; simp at h
        | some q =>
          obtain ⟨ws, s2⟩ := q
          rw [hy] at h
          have h2 : StoreExt env s s2 :=
            storeExt_trans h1 (ih.eexprL _ _ _ _ _ hy)
          by_cases hz : ws.length = 1 ∧ isError (ws.getD 0 none) = true
          · simp only [if_pos hz] at h
            obtain ⟨rfl, rfl⟩ := by simpa using h
            exact h2
          · simp only [if_neg hz] at h
            obtain ⟨rfl, rfl⟩ := by simpa using h
            exact h2

theorem evalApply_step {F : Type} {FM : FloatModel F} {fuel : Nat}
    (ih : ExtAll FM fuel) :
    ∀ (fn : GoVal F) args s r s',
      applyFunction FM (fuel + 1) fn args s = some (r, s') →
      StorePres s s' := by
  intro fn args s r s' h
  cases fn with
  | none => simp [applyFunction] at h
  | some obj =>
    cases obj
    case function f =>
      simp only [applyFunction] at h
      cases hy : EvalBlock FM fuel f.body (extendFunctionEnv s f args).1
          (extendFunctionEnv s f args).2 with
      | none => rw [hy] at h; simp at h
      | some q =>
        obtain ⟨ev, s2⟩ := q
        rw [hy] at h
        (try dsimp only at h)
        simp only [Option.some.injEq, Prod.mk.injEq] at h
        obtain ⟨rfl, rfl⟩ := h
        exact storePres_trans_fresh (storePres_allocScope s _)
          (ih.eblock _ _ _ _ _ hy) (le_refl _)
    case builtin name =>
      simp only [applyFunction] at h
      cases hy : applyBuiltin name args with
      | none => rw [hy] at h; simp at h
      | some v =>
        rw [hy] at h
        (try dsimp only at h)
        simp only [Option.some.injEq, Prod.mk.injEq] at h
        obtain ⟨rfl, rfl⟩ := h
        exact storePres_refl s
    all_goals
      simp only [applyFunction, Option.some.injEq, Prod.mk.injEq] at h
    all_goals obtain ⟨rfl, rfl⟩ := h
    all_goals exact storePres_refl s

theorem evalIf_step {F : Type} {FM : FloatModel F} {fuel : Nat}
    (ih : ExtAll FM fuel) :
    ∀ (c : Option (Expr F)) cq alt env s r s',
      EvalIfExpression FM (fuel + 1) c cq alt env s = some (r, s') →
      StoreExt env s s' := by
  intro c cq alt env s r s' h
  simp only [EvalIfExpression] at h
  cases hx : EvalOpt FM fuel c env s with
  | none => rw [hx] at h; simp at h
  | some p =>
    obtain ⟨cond, s1⟩ := p
    rw [hx] at h
    (try dsimp only at h)
    have h1 : StoreExt env s s1 := ih.eopt _ _ _ _ _ hx
    by_cases he : isError cond = true
    · rw [if_pos he] at h
      simp only [Option.some.injEq, Prod.mk.injEq] at h
      obtain ⟨rfl, rfl⟩ := h
      exact h1
    · rw [if_neg he] at h
      cases cond with
      | none => simp at h
      | some cv =>
        (try dsimp only at h)
        by_cases ht : isTruthy FM cv = true
        · rw [if_pos ht] at h
          exact storeExt_trans h1 (ih.eblock _ _ _ _ _ h)
        · rw [if_neg ht] at h
          cases alt with
          | some altb => exact storeExt_trans h1 (ih.eblock _ _ _ _ _ h)
          | none =>
            simp only [Option.some.injEq, Prod.mk.injEq] at h
            obtain ⟨rfl, rfl⟩ := h
            exact h1

theorem evalWhile_step {F : Type} {FM : FloatModel F} {fuel : Nat}
    (ih : ExtAll FM fuel) :
    ∀ (c : Option (Expr F)) b env s acc r s',
      EvalWhileExpression FM (fuel + 1) c b env s acc = some (r, s') →
      StoreExt env s s' := by
  intro c b env s acc r s' h
  simp only [EvalWhileExpression] at h
  cases hx : EvalOpt FM fuel c env s with
  | none => rw [hx] at h; simp at h
  | some p =>
    obtain ⟨cond, s1⟩ := p
    rw [hx] at h
    (try dsimp only at h)
    have h1 : StoreExt env s s1 := ih.eopt _ _ _ _ _ hx
    by_cases he : isError cond = true
    · rw [if_pos he] at h
      simp only [Option.some.injEq, Prod.mk.injEq] at h
      obtain ⟨rfl, rfl⟩ := h
      exact h1
    · rw [if_neg he] at h
      cases cond with
      | none => simp at h
      | some cv =>
        (try dsimp only at h)
        by_cases ht : (! isTruthy FM cv) = true
        · rw [if_pos ht] at h
          simp only [Option.some.injEq, Prod.mk.injEq] at h
          obtain ⟨rfl, rfl⟩ := h
          exact h1
        · rw [if_neg ht] at h
          cases hy : EvalBlock FM fuel b env s1 with
          | none => rw [hy] at h; simp at h
          | some q =>
            obtain ⟨result, s2⟩ := q
            rw [hy] at h
            (try dsimp only at h)
            have h2 : StoreExt env s s2 :=
              storeExt_trans h1 (ih.eblock _ _ _ _ _ hy)
            by_cases hr : isError result = true
            · rw [if_pos hr] at h
              simp only [Option.some.injEq, Prod.mk.injEq] at h
              obtain ⟨rfl, rfl⟩ := h
              exact h2
            · rw [if_neg hr] at h
              cases result with
              | none => exact storeExt_trans h2 (ih.ewhile _ _ _ _ _ _ _ h)
              | some robj =>
                cases robj <;>
                  first
                  | (simp only [Option.some.injEq, Prod.mk.injEq] at h;
                     obtain ⟨rfl, rfl⟩ := h; exact h2)
                  | exact storeExt_trans h2 (ih.ewhile _ _ _ _ _ _ _ h)

theorem evalForUpdate_aux {F : Type} {FM : FloatModel F} {fuel : Nat}
    (ih : ExtAll FM fuel) {c : Option (Expr F)} {ust : Stmt F}
    {b : Block F} {env : Nat} {s1 : Store F} {acc r : GoVal F}
    {s' : Store F}
    (hm : (match EvalStmt FM fuel ust env s1 with
      | none => none
      | some (ur, s3) =>
        if isError ur = true then some (ur, s3)
        else EvalForLoop FM fuel c (some ust) b env s3 acc) =
      some (r, s')) : StoreExt env s1 s' := by
  cases hz : EvalStmt FM fuel ust env s1 with
  | none => rw [hz] at hm; simp at hm
  | some w =>
    obtain ⟨ur, s3⟩ := w
    rw [hz] at hm
    (try dsimp only at hm)
    by_cases hu : isError ur = true
    · rw [if_pos hu] at hm
      simp only [Option.some.injEq, Prod.mk.injEq] at hm
      obtain ⟨rfl, rfl⟩ := hm
      exact ih.estmt _ _ _ _ _ hz
    · rw [if_neg hu] at hm
      exact storeExt_trans (ih.estmt _ _ _ _ _ hz)
        (ih.eforLoop _ _ _ _ _ _ _ _ hm)

theorem evalForBody_step {F : Type} {FM : FloatModel F} {fuel : Nat}
    (ih : ExtAll FM fuel) :
    ∀ (c : Option (Expr F)) u b env s r s',
      EvalForBody FM (fuel + 1) c u b env s = some (r, s') →
      StoreExt env s s' := by
  intro c u b env s r s' h
  simp only [EvalForBody] at h
  cases hy : EvalBlock FM fuel b env s with
  | none => rw [hy] at h; simp at h
  | some q =>
    obtain ⟨result, s1⟩ := q
    rw [hy] at h
    (try dsimp only at h)
    have h1 : StoreExt env s s1 := ih.eblock _ _ _ _ _ hy
    by_cases hr : isError result = true
    · rw [if_pos hr] at h
      simp only [Option.some.injEq, Prod.mk.injEq] at h
      obtain ⟨rfl, rfl⟩ := h
      exact h1
    · rw [if_neg hr] at h
      cases u with
      | some ust =>
        cases result with
        | none =>
          (try dsimp only at h)
          exact storeExt_trans h1 (evalForUpdate_aux ih h)
        | some robj =>
          cases robj <;>
            first
            | (simp only [Option.some.injEq, Prod.mk.injEq] at h;
               obtain ⟨rfl, rfl⟩ := h; exact h1)
            | exact storeExt_trans h1 (evalForUpdate_aux ih h)
      | none =>
        cases result with
        | none =>
          (try dsimp only at h)
          exact storeExt_trans h1 (ih.eforLoop _ _ _ _ _ _ _ _ h)
        | some robj =>
          cases robj <;>
            first
            | (simp only [Option.some.injEq, Prod.mk.injEq] at h;
               obtain ⟨rfl, rfl⟩ := h; exact h1)
            | exact storeExt_trans h1 (ih.eforLoop _ _ _ _ _ _ _ _ h)

theorem evalForLoop_step {F : Type} {FM : FloatModel F} {fuel : Nat}
    (ih : ExtAll FM fuel) :
    ∀ (c : Option (Expr F)) u b env s acc r s',
      EvalForLoop FM (fuel + 1) c u b env s acc = some (r, s') →
      StoreExt env s s' := by
  intro c u b env s acc r s' h
  simp only [EvalForLoop] at h
  cases c with
  | some ce =>
    (try dsimp only at h)
    cases hx : EvalExpr FM fuel ce env s with
    | none => rw [hx] at h; simp at h
    | some p =>
      obtain ⟨cond, s1⟩ := p
      rw [hx] at h
      (try dsimp only at h)
      have h1 : StoreExt env s s1 := ih.eexpr _ _ _ _ _ hx
      by_cases he : isError cond = true
      · rw [if_pos he] at h
        simp only [Option.some.injEq, Prod.mk.injEq] at h
        obtain ⟨rfl, rfl⟩ := h
        exact h1
      · rw [if_neg he] at h
        cases cond with
        | none => simp at h
        | some cv =>
          (try dsimp only at h)
          by_cases ht : (! isTruthy FM cv) = true
          · rw [if_pos ht] at h
            simp only [Option.some.injEq, Prod.mk.injEq] at h
            obtain ⟨rfl, rfl⟩ := h
            exact h1
          · rw [if_neg ht] at h
            exact storeExt_trans h1 (ih.eforBody _ _ _ _ _ _ _ h)
  | none => exact ih.eforBody _ _ _ _ _ _ _ h

theorem evalFor_step {F : Type} {FM : FloatModel F} {fuel : Nat}
    (ih : ExtAll FM fuel) :
    ∀ (i : Option (Stmt F)) c u b env s r s',
      EvalForExpression FM (fuel + 1) i c u b env s = some (r, s') →
      StoreExt env s s' := by
  intro i c u b env s r s' h
  simp only [EvalForExpression] at h
  have hpres : StorePres s (s.allocScope ⟨[], some env⟩).2 :=
    storePres_allocScope s _
  have hfresh : s.scopes.length ≤ (s.allocScope ⟨[], some env⟩).1 :=
    le_refl _
  cases i with
  | some st =>
    (try dsimp only at h)
    cases hx : EvalStmt FM fuel st (s.allocScope ⟨[], some env⟩).1
        (s.allocScope ⟨[], some env⟩).2 with
    | none => rw [hx] at h; simp at h
    | some p =>
      obtain ⟨ir, s1⟩ := p
      rw [hx] at h
      (try dsimp only at h)
      have h1 : StorePres s s1 :=
        storePres_trans_fresh hpres (ih.estmt _ _ _ _ _ hx) hfresh
      by_cases he : isError ir = true
      · rw [if_pos he] at h
        simp only [Option.some.injEq, Prod.mk.injEq] at h
        obtain ⟨rfl, rfl⟩ := h
        exact h1.toExt env
      · rw [if_neg he] at h
        have h2 : StorePres s s' := storePres_trans_fresh h1
          (ih.eforLoop _ _ _ _ _ _ _ _ h)
          (le_trans hfresh (by exact le_refl _))
        exact h2.toExt env
  | none =>
    have h2 : StorePres s s' := storePres_trans_fresh hpres
      (ih.eforLoop _ _ _ _ _ _ _ _ h) hfresh
    exact h2.toExt env

theorem evalPairs_step {F : Type} {FM : FloatModel F} {fuel : Nat}
    (ih : ExtAll FM fuel) :
    ∀ (prs : List (Option (Expr F) × Option (Expr F))) env s acc r s',
      EvalPairsLoop FM (fuel + 1) prs env s acc = some (r, s') →
      StoreExt env s s' := by
  intro prs env s acc r s' h
  cases prs with
  | nil =>
    simp only [EvalPairsLoop] at h
    obtain ⟨rfl, rfl⟩ := by simpa using h
    exact storeExt_refl env s
  | cons pr rest =>
    obtain ⟨kE, vE⟩ := pr
    simp only [EvalPairsLoop] at h
    cases hx : EvalOpt FM fuel kE env s with
    | none => rw [hx] at h; simp at h
    | some p =>
      obtain ⟨k, s1⟩ := p
      rw [hx] at h
      (try dsimp only at h)
      have h1 : StoreExt env s s1 := ih.eopt _ _ _ _ _ hx
      by_cases he : isError k = true
      · rw [if_pos he] at h
        simp only [Option.some.injEq, Prod.mk.injEq] at h
        obtain ⟨rfl, rfl⟩ := h
        exact h1
      · rw [if_neg he] at h
        cases k with
        | none => simp at h
        | some kv =>
          (try dsimp only at h)
          cases hk : hashKeyOf kv with
          | none =>
            rw [hk] at h
            (try dsimp only at h)
            simp only [Option.some.injEq, Prod.mk.injEq] at h
            obtain ⟨rfl, rfl⟩ := h
            exact h1
          | some hkk =>
            rw [hk] at h
            (try dsimp only at h)
            cases hy : EvalOpt FM fuel vE env s1 with
            | none => rw [hy] at h; simp at h
            | some q =>
              obtain ⟨v, s2⟩ := q
              rw [hy] at h
              (try dsimp only at h)
              have h2 : StoreExt env s s2 :=
                storeExt_trans h1 (ih.eopt _ _ _ _ _ hy)
              by_cases hv : isError v = true
              · rw [if_pos hv] at h
                simp only [Option.some.injEq, Prod.mk.injEq] at h
                obtain ⟨rfl, rfl⟩ := h
                exact h2
              · rw [if_neg hv] at h
                exact storeExt_trans h2 (ih.epairs _ _ _ _ _ _ h)

theorem evalClassProps_step {F : Type} {FM : FloatModel F} {fuel : Nat}
    (ih : ExtAll FM fuel) :
    ∀ (prs : List (Option (LetData F))) env s acc r s',
      EvalClassPropsLoop FM (fuel + 1) prs env s acc = some (r, s') →
      StoreExt env s s' := by
  intro prs env s acc r s' h
  cases prs with
  | nil =>
    simp only [EvalClassPropsLoop] at h
    obtain ⟨rfl, rfl⟩ := by simpa using h
    exact storeExt_refl env s
  | cons d? rest =>
    cases d? with
    | none => simp [EvalClassPropsLoop] at h
    | some d =>
      simp only [EvalClassPropsLoop] at h
      cases hx : EvalOpt FM fuel d.value env s with
      | none => rw [hx] at h; simp at h
      | some p =>
        obtain ⟨v, s1⟩ := p
        rw [hx] at h
        (try dsimp only at h)
        have h1 : StoreExt env s s1 := ih.eopt _ _ _ _ _ hx
        by_cases hv : isError v = true
        · rw [if_pos hv] at h
          simp only [Option.some.injEq, Prod.mk.injEq] at h
          obtain ⟨rfl, rfl⟩ := h
          exact h1
        · rw [if_neg hv] at h
          exact storeExt_trans h1 (ih.eclassProps _ _ _ _ _ _ h)

theorem evalClassLit_step {F : Type} {FM : FloatModel F} {fuel : Nat}
    (ih : ExtAll FM fuel) :
    ∀ (nm : Identifier) prs ms env s r s',
      EvalClassLiteral FM (fuel + 1) nm prs ms env s = some (r, s') →
      StoreExt env s s' := by
  intro nm prs ms env s r s' h
  simp only [EvalClassLiteral] at h
  cases hx : EvalClassPropsLoop FM fuel prs env
      { s with nextId := s.nextId + 1 } [] with
  | none => rw [hx] at h; simp at h
  | some q =>
    obtain ⟨res, s1⟩ := q
    rw [hx] at h
    (try dsimp only at h)
    have h1 : StoreExt env s s1 :=
      storeExt_trans ((storePres_nextId s (s.nextId + 1)).toExt env)
        (ih.eclassProps _ _ _ _ _ _ hx)
    cases res with
    | inl err =>
      (try dsimp only at h)
      simp only [Option.some.injEq, Prod.mk.injEq] at h
      obtain ⟨rfl, rfl⟩ := h
      exact h1
    | inr props =>
      (try dsimp only at h)
      simp only [Option.some.injEq, Prod.mk.injEq] at h
      obtain ⟨rfl, rfl⟩ := h
      exact storeExt_trans
        (storeExt_trans h1 ((buildClassMethods_pres ms env s1 []).toExt env))
        (storeExt_setBinding env _ _ _)

theorem evalNew_step {F : Type} {FM : FloatModel F} {fuel : Nat}
    (ih : ExtAll FM fuel) :
    ∀ (cls : Option (Expr F)) args env s r s',
      EvalNewExpression FM (fuel + 1) cls args env s = some (r, s') →
      StoreExt env s s' := by
  intro cls args env s r s' h
  simp only [EvalNewExpression] at h
  cases hx : EvalOpt FM fuel cls env s with
  | none => rw [hx] at h; simp at h
  | some p =>
    obtain ⟨cv, s1⟩ := p
    rw [hx] at h
    (try dsimp only at h)
    have h1 : StoreExt env s s1 := ih.eopt _ _ _ _ _ hx
    by_cases he : isError cv = true
    · rw [if_pos he] at h
      simp only [Option.some.injEq, Prod.mk.injEq] at h
      obtain ⟨rfl, rfl⟩ := h
      exact h1
    · rw [if_neg he] at h
      cases cv with
      | none => simp at h
      | some o =>
        (try dsimp only at h)
        cases o with
        | classObj c =>
          (try dsimp only at h)
          have hset : StorePres s1 (newInstanceSetup s1 env c).2 :=
            newInstanceSetup_pres s1 env c
          cases hc : getAssoc c.methods "crear" with
          | none =>
            rw [hc] at h
            (try dsimp only at h)
            simp only [Option.some.injEq, Prod.mk.injEq] at h
            obtain ⟨rfl, rfl⟩ := h
            exact storeExt_trans h1 (hset.toExt env)
          | some ctor =>
            rw [hc] at h
            (try dsimp only at h)
            cases hy : EvalExprList FM fuel args env
                (newInstanceSetup s1 env c).2 with
            | none => rw [hy] at h; simp at h
            | some q =>
              obtain ⟨argv, s2⟩ := q
              rw [hy] at h
              (try dsimp only at h)
              have h2 : StoreExt env s s2 :=
                storeExt_trans (storeExt_trans h1 (hset.toExt env))
                  (ih.eexprL _ _ _ _ _ hy)
              by_cases hz : argv.length = 1 ∧ isError (argv.getD 0 none) = true
              · rw [if_pos hz] at h
                simp only [Option.some.injEq, Prod.mk.injEq] at h
                obtain ⟨rfl, rfl⟩ := h
                exact h2
              · rw [if_neg hz] at h
                cases hb : EvalBlock FM fuel ctor.body
                    (ctorEnvSetup s2 (newInstanceSetup s1 env c).1 ctor argv).1
                    (ctorEnvSetup s2 (newInstanceSetup s1 env c).1 ctor argv).2
                    with
                | none => rw [hb] at h; simp at h
                | some w =>
                  obtain ⟨bv, s3⟩ := w
                  rw [hb] at h
                  (try dsimp only at h)
                  simp only [Option.some.injEq, Prod.mk.injEq] at h
                  obtain ⟨rfl, rfl⟩ := h
                  exact storeExt_trans h2 ((storePres_trans_fresh
                    (ctorEnvSetup_pres s2 _ ctor argv)
                    (ih.eblock _ _ _ _ _ hb) (le_refl _)).toExt env)
        | integer v =>
          simp only [Option.some.injEq, Prod.mk.injEq] at h
          obtain ⟨rfl, rfl⟩ := h
          exact h1
        | float v =>
          simp only [Option.some.injEq, Prod.mk.injEq] at h
          obtain ⟨rfl, rfl⟩ := h
          exact h1
        | boolean v =>
          simp only [Option.some.injEq, Prod.mk.injEq] at h
          obtain ⟨rfl, rfl⟩ := h
          exact h1
        | null =>
          simp only [Option.some.injEq, Prod.mk.injEq] at h
          obtain ⟨rfl, rfl⟩ := h
          exact h1
        | returnValue v =>
          simp only [Option.some.injEq, Prod.mk.injEq] at h
          obtain ⟨rfl, rfl⟩ := h
          exact h1
        | error m => exact absurd rfl he
        | function f =>
          simp only [Option.some.injEq, Prod.mk.injEq] at h
          obtain ⟨rfl, rfl⟩ := h
          exact h1
        | string v =>
          simp only [Option.some.injEq, Prod.mk.injEq] at h
          obtain ⟨rfl, rfl⟩ := h
          exact h1
        | builtin n =>
          simp only [Option.some.injEq, Prod.mk.injEq] at h
          obtain ⟨rfl, rfl⟩ := h
          exact h1
        | array i el =>
          simp only [Option.some.injEq, Prod.mk.injEq] at h
          obtain ⟨rfl, rfl⟩ := h
          exact h1
        | hash i pr =>
          simp only [Option.some.injEq, Prod.mk.injEq] at h
          obtain ⟨rfl, rfl⟩ := h
          exact h1
        | instanceObj ihdl =>
          simp only [Option.some.injEq, Prod.mk.injEq] at h
          obtain ⟨rfl, rfl⟩ := h
          exact h1

theorem evalExpr_step {F : Type} {FM : FloatModel F} {fuel : Nat}
    (ih : ExtAll FM fuel) :
    ∀ (e : Expr F) env s r s',
      EvalExpr FM (fuel + 1) e env s = some (r, s') → StoreExt env s s' := by
  intro e env s r s' h
  cases e with
  | ident tok value =>
    simp only [EvalExpr, Option.some.injEq, Prod.mk.injEq] at h
    obtain ⟨rfl, rfl⟩ := h
    exact storeExt_refl env s
  | integerLit tok v =>
    simp only [EvalExpr, Option.some.injEq, Prod.mk.injEq] at h
    obtain ⟨rfl, rfl⟩ := h
    exact storeExt_refl env s
  | floatLit tok v =>
    simp only [EvalExpr, Option.some.injEq, Prod.mk.injEq] at h
    obtain ⟨rfl, rfl⟩ := h
    exact storeExt_refl env s
  | stringLit tok v =>
    simp only [EvalExpr, Option.some.injEq, Prod.mk.injEq] at h
    obtain ⟨rfl, rfl⟩ := h
    exact storeExt_refl env s
  | booleanLit tok v =>
    simp only [EvalExpr, Option.some.injEq, Prod.mk.injEq] at h
    obtain ⟨rfl, rfl⟩ := h
    exact storeExt_refl env s
  | nullLit tok =>
    simp only [EvalExpr, Option.some.injEq, Prod.mk.injEq] at h
    obtain ⟨rfl, rfl⟩ := h
    exact storeExt_refl env s
  | prefixE tok operator right =>
    simp only [EvalExpr] at h
    cases hx : EvalOpt FM fuel right env s with
    | none => rw [hx] at h; simp at h
    | some p =>
      obtain ⟨rv, s1⟩ := p
      rw [hx] at h
      (try dsimp only at h)
      have h1 : StoreExt env s s1 := ih.eopt _ _ _ _ _ hx
      by_cases he : isError rv = true
      · rw [if_pos he] at h
        simp only [Option.some.injEq, Prod.mk.injEq] at h
        obtain ⟨rfl, rfl⟩ := h
        exact h1
      · rw [if_neg he] at h
        cases hp : evalPrefixExpression FM operator rv with
        | none => rw [hp] at h; simp at h
        | some v =>
          rw [hp] at h
          simp only [Option.some.injEq, Prod.mk.injEq] at h
          obtain ⟨rfl, rfl⟩ := h
          exact h1
  | infixE tok left operator right =>
    simp only [EvalExpr] at h
    cases hx : EvalOpt FM fuel left env s with
    | none => rw [hx] at h; simp at h
    | some p =>
      obtain ⟨lv, s1⟩ := p
      rw [hx] at h
      (try dsimp only at h)
      have h1 : StoreExt env s s1 := ih.eopt _ _ _ _ _ hx
      by_cases he : isError lv = true
      · rw [if_pos he] at h
        simp only [Option.some.injEq, Prod.mk.injEq] at h
        obtain ⟨rfl, rfl⟩ := h
        exact h1
      · rw [if_neg he] at h
        cases hy : EvalOpt FM fuel right env s1 with
        | none => rw [hy] at h; simp at h
        | some q =>
          obtain ⟨rv, s2⟩ := q
          rw [hy] at h
          (try dsimp only at h)
          have h2 : StoreExt env s s2 :=
            storeExt_trans h1 (ih.eopt _ _ _ _ _ hy)
          by_cases hr : isError rv = true
          · rw [if_pos hr] at h
            simp only [Option.some.injEq, Prod.mk.injEq] at h
            obtain ⟨rfl, rfl⟩ := h
            exact h2
          · rw [if_neg hr] at h
            cases hi : evalInfixExpression FM operator lv rv with
            | none => rw [hi] at h; simp at h
            | some v =>
              rw [hi] at h
              simp only [Option.some.injEq, Prod.mk.injEq] at h
              obtain ⟨rfl, rfl⟩ := h
              exact h2
  | ifE tok condition consequence alternative =>
    simp only [EvalExpr] at h
    exact ih.eif _ _ _ _ _ _ _ h
  | whileE tok condition body =>
    simp only [EvalExpr] at h
    exact ih.ewhile _ _ _ _ _ _ _ h
  | forE tok init condition update body =>
    simp only [EvalExpr] at h
    exact ih.efor _ _ _ _ _ _ _ _ h
  | functionLit d =>
    simp only [EvalExpr, Option.some.injEq, Prod.mk.injEq] at h
    obtain ⟨rfl, rfl⟩ := h
    exact (storePres_nextId s _).toExt env
  | callE tok function args =>
    simp only [EvalExpr] at h
    cases hx : EvalOpt FM fuel function env s with
    | none => rw [hx] at h; simp at h
    | some p =>
      obtain ⟨fv, s1⟩ := p
      rw [hx] at h
      (try dsimp only at h)
      have h1 : StoreExt env s s1 := ih.eopt _ _ _ _ _ hx
      by_cases he : isError fv = true
      · rw [if_pos he] at h
        simp only [Option.some.injEq, Prod.mk.injEq] at h
        obtain ⟨rfl, rfl⟩ := h
        exact h1
      · rw [if_neg he] at h
        cases hy : EvalExprList FM fuel args env s1 with
        | none => rw [hy] at h; simp at h
        | some q =>
          obtain ⟨argv, s2⟩ := q
          rw [hy] at h
          (try dsimp only at h)
          have h2 : StoreExt env s s2 :=
            storeExt_trans h1 (ih.eexprL _ _ _ _ _ hy)
          by_cases hz : argv.length = 1 ∧ isError (argv.getD 0 none) = true
          · rw [if_pos hz] at h
            simp only [Option.some.injEq, Prod.mk.injEq] at h
            obtain ⟨rfl, rfl⟩ := h
            exact h2
          · rw [if_neg hz] at h
            exact storeExt_trans h2 ((ih.eapply _ _ _ _ _ h).toExt env)
  | arrayLit tok elements =>
    simp only [EvalExpr] at h
    cases hx : EvalExprList FM fuel elements env s with
    | none => rw [hx] at h; simp at h
    | some p =>
      obtain ⟨elems, s1⟩ := p
      rw [hx] at h
      (try dsimp only at h)
      have h1 : StoreExt env s s1 := ih.eexprL _ _ _ _ _ hx
      by_cases hz : elems.length = 1 ∧ isError (elems.getD 0 none) = true
      · rw [if_pos hz] at h
        simp only [Option.some.injEq, Prod.mk.injEq] at h
        obtain ⟨rfl, rfl⟩ := h
        exact h1
      · rw [if_neg hz] at h
        simp only [Option.some.injEq, Prod.mk.injEq] at h
        obtain ⟨rfl, rfl⟩ := h
        exact storeExt_trans h1 ((storePres_nextId s1 _).toExt env)
  | indexE tok left index =>
    simp only [EvalExpr] at h
    cases hx : EvalOpt FM fuel left env s with
    | none => rw [hx] at h; simp at h
    | some p =>
      obtain ⟨lv, s1⟩ := p
      rw [hx] at h
      (try dsimp only at h)
      have h1 : StoreExt env s s1 := ih.eopt _ _ _ _ _ hx
      by_cases he : isError lv = true
      · rw [if_pos he] at h
        simp only [Option.some.injEq, Prod.mk.injEq] at h
        obtain ⟨rfl, rfl⟩ := h
        exact h1
      · rw [if_neg he] at h
        cases hy : EvalOpt FM fuel index env s1 with
        | none => rw [hy] at h; simp at h
        | some q =>
          obtain ⟨iv, s2⟩ := q
          rw [hy] at h
          (try dsimp only at h)
          have h2 : StoreExt env s s2 :=
            storeExt_trans h1 (ih.eopt _ _ _ _ _ hy)
          by_cases hr : isError iv = true
          · rw [if_pos hr] at h
            simp only [Option.some.injEq, Prod.mk.injEq] at h
            obtain ⟨rfl, rfl⟩ := h
            exact h2
          · rw [if_neg hr] at h
            cases hi : evalIndexExpression lv iv with
            | none => rw [hi] at h; simp at h
            | some v =>
              rw [hi] at h
              simp only [Option.some.injEq, Prod.mk.injEq] at h
              obtain ⟨rfl, rfl⟩ := h
              exact h2
  | hashLit tok pairs =>
    simp only [EvalExpr] at h
    cases hx : EvalPairsLoop FM fuel pairs env s [] with
    | none => rw [hx] at h; simp at h
    | some p =>
      obtain ⟨res, s1⟩ := p
      rw [hx] at h
      (try dsimp only at h)
      have h1 : StoreExt env s s1 := ih.epairs _ _ _ _ _ _ hx
      cases res with
      | inl err =>
        (try dsimp only at h)
        simp only [Option.some.injEq, Prod.mk.injEq] at h
        obtain ⟨rfl, rfl⟩ := h
        exact h1
      | inr prs =>
        (try dsimp only at h)
        simp only [Option.some.injEq, Prod.mk.injEq] at h
        obtain ⟨rfl, rfl⟩ := h
        exact storeExt_trans h1 ((storePres_nextId s1 _).toExt env)
  | dotE tok obj property =>
    simp only [EvalExpr] at h
    cases hx : EvalOpt FM fuel obj env s with
    | none => rw [hx] at h; simp at h
    | some p =>
      obtain ⟨ov, s1⟩ := p
      rw [hx] at h
      (try dsimp only at h)
      have h1 : StoreExt env s s1 := ih.eopt _ _ _ _ _ hx
      by_cases he : isError ov = true
      · rw [if_pos he] at h
        simp only [Option.some.injEq, Prod.mk.injEq] at h
        obtain ⟨rfl, rfl⟩ := h
        exact h1
      · rw [if_neg he] at h
        cases hd : evalDotExpression s1 ov property.value with
        | none => rw [hd] at h; simp at h
        | some q =>
          obtain ⟨v, s2⟩ := q
          rw [hd] at h
          simp only [Option.some.injEq, Prod.mk.injEq] at h
          obtain ⟨rfl, rfl⟩ := h
          exact storeExt_trans h1 ((evalDot_pres hd).toExt env)
  | classLit tok name parent interfaces properties methods =>
    simp only [EvalExpr] at h
    exact ih.eclassLit _ _ _ _ _ _ _ h
  | newE tok cls args =>
    simp only [EvalExpr] at h
    exact ih.enew _ _ _ _ _ _ h

/-- the store-mutation invariant, at every fuel: see `ExtAll`. -/
theorem extAll {F : Type} (FM : FloatModel F) (fuel : Nat) :
    ExtAll FM fuel := by
  induction fuel with
  | zero => exact extAll_zero FM
  | succ fuel ihf =>
    exact ⟨evalExpr_step ihf, evalOpt_step ihf, evalStmt_step ihf,
      evalProgList_step ihf, evalBlockList_step ihf, evalBlock_step ihf,
      evalExprList_step ihf, evalApply_step ihf, evalIf_step ihf,
      evalWhile_step ihf, evalFor_step ihf, evalForLoop_step ihf,
      evalForBody_step ihf, evalPairs_step ihf, evalClassProps_step ihf,
      evalClassLit_step ihf, evalNew_step ihf⟩

/-- `Environment.Get` only looks at the chain below its start scope:
lookups from an old scope are unchanged by any store growth that
preserves the old scopes (chains descend by `WfStore`). -/
theorem envGetAux_stable {F : Type} {s s' : Store F}
    (hpres : ∀ k, k < s.scopes.length →
      s'.scopes.get? k = s.scopes.get? k)
    (wf : WfStore s) :
    ∀ fuel h name, h < s.scopes.length →
      envGetAux s' fuel h name = envGetAux s fuel h name := by
  intro fuel
  induction fuel with
  | zero => intro h name _; rfl
  | succ fuel ihf =>
    intro h name hh
    simp only [envGetAux]
    rw [hpres h hh]
    cases hsc : s.scopes.get? h with
    | none => rfl
    | some sc =>
      (try dsimp only)
      cases hga : getAssoc sc.bindings name with
      | some v => rfl
      | none =>
        (try dsimp only)
        cases ho : sc.outer with
        | none => rfl
        | some o =>
          (try dsimp only)
          exact ihf o name (lt_trans (wf h sc hsc o ho) hh)

theorem envGet_stable {F : Type} {s s' : Store F}
    (hpres : ∀ k, k < s.scopes.length →
      s'.scopes.get? k = s.scopes.get? k)
    (wf : WfStore s) (h : Nat) (name : String)
    (hh : h < s.scopes.length) :
    envGet s' h name = envGet s h name :=
  envGetAux_stable hpres wf (h + 1) h name hh

theorem getAssoc_setAssoc_ne {κ α : Type} [DecidableEq κ]
    (l : List (κ × α)) (k' k : κ) (v : α) (hne : k' ≠ k) :
    getAssoc (setAssoc l k' v) k = getAssoc l k := by
  induction l with
  | nil => simp [setAssoc, getAssoc, hne]
  | cons p rest ihl =>
    obtain ⟨k0, v0⟩ := p
    by_cases h0 : k0 = k'
    · subst h0
      simp [setAssoc, getAssoc, hne]
    · simp only [setAssoc, if_neg h0, getAssoc]
      by_cases h1 : k0 = k
      · simp [h1]
      · simp [h1, ihl]

/-- the parameter loop of `extendFunctionEnv` never binds a name that is
not a parameter name. -/
theorem paramBindings_getAssoc {F : Type} (args : List (GoVal F)) :
    ∀ (ps : List Identifier) (idx : Nat) (acc : List (String × GoVal F))
      (k : String), (∀ p ∈ ps, p.value ≠ k) →
      getAssoc (paramBindings args ps idx acc) k = getAssoc acc k := by
  intro ps
  induction ps with
  | nil => intro idx acc k _; rfl
  | cons prm rest ihp =>
    intro idx acc k hk
    simp only [paramBindings]
    rw [ihp _ _ k (fun p hp => hk p (List.mem_cons_of_mem _ hp))]
    exact getAssoc_setAssoc_ne _ _ _ _ (hk prm (List.mem_cons_self _ _))

/-! ## The claims -/

/-- **C3.** For all 64-bit integers `a` and `b`: if `b = 0`, evaluating
`a / b` returns the error "división por cero" and `a % b` returns the
error "módulo por cero"; if `b ≠ 0`, both return an Integer result and
no error is produced. -/
theorem C3_integer_div_mod_zero {F : Type} (FM : FloatModel F)
    (a b : Int) :
    (b = 0 →
      evalInfixExpression FM "/" (some (.integer a)) (some (.integer b)) =
        some (.error "división por cero") ∧
      evalInfixExpression FM "%" (some (.integer a)) (some (.integer b)) =
        some (.error "módulo por cero")) ∧
    (b ≠ 0 →
      (∃ q : Int, evalInfixExpression FM "/" (some (.integer a))
        (some (.integer b)) = some (.integer q)) ∧
      (∃ m : Int, evalInfixExpression FM "%" (some (.integer a))
        (some (.integer b)) = some (.integer m))) := by
  constructor
  · rintro rfl
    constructor <;>
      simp [evalInfixExpression, evalIntegerInfixExpression]
  · intro hb
    exact ⟨⟨wrap64 (Int.tdiv a b),
      by simp [evalInfixExpression, evalIntegerInfixExpression, hb]⟩,
      ⟨Int.tmod a b,
      by simp [evalInfixExpression, evalIntegerInfixExpression, hb]⟩⟩

theorem C3_integer_div_mod_zero_witness :
    (evalInfixExpression intFM "/" (some (.integer 7)) (some (.integer 0)) =
      some (.error "división por cero") ∧
     evalInfixExpression intFM "%" (some (.integer 7)) (some (.integer 0)) =
      some (.error "módulo por cero")) ∧
    ((∃ q : Int, evalInfixExpression intFM "/" (some (.integer 7))
        (some (.integer 3)) = some (.integer q)) ∧
     (∃ m : Int, evalInfixExpression intFM "%" (some (.integer 7))
        (some (.integer 3)) = some (.integer m))) :=
  ⟨(C3_integer_div_mod_zero intFM 7 0).1 rfl,
   (C3_integer_div_mod_zero intFM 7 3).2 (by decide)⟩

/-- **C6.** Array indexing `a[i]` returns the element at position `i`
when `0 ≤ i < len(a)` and returns `nulo` — not an error — when `i < 0`
or `i ≥ len(a)`. -/
theorem C6_array_index {F : Type} (aid : Nat)
    (elements : List (GoVal F)) (i : Int) :
    (∀ v, 0 ≤ i → elements.get? i.toNat = some v →
      evalIndexExpression (some (.array aid elements))
        (some (.integer i)) = some v) ∧
    ((i < 0 ∨ (elements.length : Int) ≤ i) →
      evalIndexExpression (some (.array aid elements))
        (some (.integer i)) = some (some .null)) := by
  constructor
  · intro v h0 hv
    have hlt : i.toNat < elements.length := (List.get?_eq_some.mp hv).1
    show some (evalArrayIndexExpression elements i) = some v
    unfold evalArrayIndexExpression
    rw [if_neg (by omega)]
    rw [List.getD_eq_getElem?_getD, ← List.get?_eq_getElem?, hv]
    rfl
  · intro hrange
    show some (evalArrayIndexExpression elements i) = some (some .null)
    unfold evalArrayIndexExpression
    rw [if_pos (by omega)]

theorem C6_array_index_witness :
    evalIndexExpression (some (.array 0 [some (.integer 1),
      some (.integer 2), some (.integer 3)] : Obj Int))
      (some (.integer 5)) = some (some .null) ∧
    evalIndexExpression (some (.array 0 [some (.integer 10),
      some (.integer 20), some (.integer 30)] : Obj Int))
      (some (.integer 1)) = some (some (.integer 20)) :=
  ⟨(C6_array_index 0 _ 5).2 (by decide),
   (C6_array_index 0 _ 1).1 (some (.integer 20)) (by decide) rfl⟩

/-- **C7** (failing input). The float `%` guard only checks
`rightVal == 0` on the floats; for `l = 2.0`, `r = 0.5` the guard
passes, `int64(r) = 0`, and the Go expression
`int64(l) % int64(r)` panics (integer division by zero) — the
interpreter crashes instead of returning
`Float(float(int(l) mod int(r)))` as the claim states. The model
(exact-rational floats, on which `2.0` and `0.5` are exactly
representable) returns `none` (= panic) there, while the zero guard and
the in-range case behave as specified. -/
theorem C7_float_mod_panic :
    oneHalf = 1 / 2 ∧
    ratFM.beq oneHalf ratFM.zero = false ∧
    evalFloatInfixExpression ratFM "%" (2 : ℚ) oneHalf = none ∧
    evalFloatInfixExpression ratFM "%" (5 : ℚ) (0 : ℚ) =
      some (.error "módulo por cero") ∧
    evalFloatInfixExpression ratFM "%" (5 : ℚ) (2 : ℚ) =
      some (.float 1) := by
  refine ⟨?_, rfl, rfl, rfl, rfl⟩
  rw [oneHalf, Rat.mk'_eq_divInt, Rat.divInt_eq_div]
  norm_num

/-- **C8.** A value is falsy exactly when it is `nulo`, the boolean
`falso`, integer 0, a float equal to 0, or the empty string; every other
value (arrays, hashes, functions, classes, instances, …) is truthy. -/
theorem C8_truthiness {F : Type} (FM : FloatModel F) (v : Obj F) :
    isTruthy FM v = false ↔
      (v = .null ∨ v = .boolean false ∨ v = .integer 0 ∨
       (∃ g, v = .float g ∧ FM.beq g FM.zero = true) ∨ v = .string "") := by
  cases v <;> simp [isTruthy]

theorem C8_truthiness_witness :
    isTruthy intFM (.integer 0) = false ∧
    isTruthy intFM (.string "") = false ∧
    isTruthy intFM (.array 0 []) = true ∧
    isTruthy intFM (.string "hola") = true :=
  ⟨(C8_truthiness intFM (.integer 0)).mpr (by simp),
   (C8_truthiness intFM (.string "")).mpr (by simp),
   rfl, rfl⟩

/-- **C10.** The prefix `!` yields `verdad` only for the boolean `falso`
and `nulo`, and `falso` for every other operand — in particular `!0`,
`!0.0` and `!""` are `falso` although those operands are falsy as
conditions, so `!` is not the negation of truthiness. -/
theorem C10_bang_not_truthiness {F : Type} (FM : FloatModel F) :
    (∀ v : Obj F, evalBangOperatorExpression (some v) = .boolean true ↔
      (v = .boolean false ∨ v = .null)) ∧
    evalBangOperatorExpression (some (.integer 0) : GoVal F) =
      .boolean false ∧
    evalBangOperatorExpression (some (.float FM.zero) : GoVal F) =
      .boolean false ∧
    evalBangOperatorExpression (some (.string "") : GoVal F) =
      .boolean false ∧
    (∃ v : Obj F, isTruthy FM v = false ∧
      evalBangOperatorExpression (some v) ≠
        (if isTruthy FM v = true then Obj.boolean false
         else Obj.boolean true)) := by
  refine ⟨?_, rfl, rfl, rfl, ⟨.integer 0, by simp [isTruthy], ?_⟩⟩
  · intro v
    cases v <;> simp [evalBangOperatorExpression]
    case boolean b => cases b <;> simp
  · simp [isTruthy, evalBangOperatorExpression]

theorem C10_bang_witness :
    evalBangOperatorExpression (some (.boolean false) : GoVal Int) =
      .boolean true ∧
    evalBangOperatorExpression (some (.integer 0) : GoVal Int) =
      .boolean false :=
  ⟨((C10_bang_not_truthiness intFM).1 (.boolean false)).mpr (Or.inl rfl),
   (C10_bang_not_truthiness intFM).2.1⟩


/-- **C1.** (corrected) The infix operators `y` and `o` do **not**
short-circuit: `Eval` evaluates both operands before dispatching, so
`verdad o (1/0)` yields the error "división por cero" rather than
`verdad`, and likewise `falso y (1/0)`. A right-operand error always
propagates (showing the right operand is evaluated); at the value level
`evalLogicalAndOperator`/`evalLogicalOrOperator` do return the last
evaluated operand without boolean coercion — but two Integer operands
are intercepted by the integer-infix case first, so `1 y 2` is an
unknown-operator error. -/
theorem C1_logical_not_short_circuit {F : Type} (FM : FloatModel F) :
    (EvalExpr intFM 9 orDivExpr 0 (rootStore Int) =
       some (some (.error "división por cero"), rootStore Int) ∧
     EvalExpr intFM 9 orDivExpr 0 (rootStore Int) ≠
       some (some (.boolean true), rootStore Int)) ∧
    (EvalExpr intFM 9 andDivExpr 0 (rootStore Int) =
       some (some (.error "división por cero"), rootStore Int) ∧
     EvalExpr intFM 9 andDivExpr 0 (rootStore Int) ≠
       some (some (.boolean false), rootStore Int)) ∧
    (∀ (fuel : Nat) (tok : Token) (left right : Option (Expr F))
       (op : String) (env : Nat) (s : Store F) (l : GoVal F) (s1 : Store F)
       (r : GoVal F) (s2 : Store F),
       op = "y" ∨ op = "o" →
       EvalOpt FM fuel left env s = some (l, s1) →
       isError l = false →
       EvalOpt FM fuel right env s1 = some (r, s2) →
       isError r = true →
       EvalExpr FM (fuel + 1) (.infixE tok left op right) env s =
         some (r, s2)) ∧
    (∀ (l r : Obj F),
       (isTruthy FM l = true → evalLogicalOrOperator FM l r = l) ∧
       (isTruthy FM l = false → evalLogicalOrOperator FM l r = r) ∧
       (isTruthy FM l = false → evalLogicalAndOperator FM l r = l) ∧
       (isTruthy FM l = true → evalLogicalAndOperator FM l r = r)) ∧
    (∀ (a b : Int),
       evalInfixExpression FM "y" (some (.integer a)) (some (.integer b)) =
         some (.error "operador desconocido: ENTERO y ENTERO") ∧
       evalInfixExpression FM "o" (some (.integer a)) (some (.integer b)) =
         some (.error "operador desconocido: ENTERO o ENTERO")) := by
  have hor : EvalExpr intFM 9 orDivExpr 0 (rootStore Int) =
      some (some (.error "división por cero"), rootStore Int) := rfl
  have hand : EvalExpr intFM 9 andDivExpr 0 (rootStore Int) =
      some (some (.error "división por cero"), rootStore Int) := rfl
  refine ⟨⟨hor, ?_⟩, ⟨hand, ?_⟩, ?_, ?_, ?_⟩
  · rw [hor]; simp
  · rw [hand]; simp
  · intro fuel tok left right op env s l s1 r s2 _ hl hlerr hr hrerr
    simp only [EvalExpr]
    rw [hl]
    (try dsimp only)
    rw [hlerr, if_neg Bool.false_ne_true, hr]
    (try dsimp only)
    rw [hrerr, if_pos rfl]
  · intro l r
    refine ⟨?_, ?_, ?_, ?_⟩ <;> intro h <;>
      simp [evalLogicalOrOperator, evalLogicalAndOperator, h]
  · intro a b
    exact ⟨rfl, rfl⟩

theorem C1_logical_not_short_circuit_witness :
    EvalExpr intFM 5 (.infixE zeroToken
      (some (.booleanLit zeroToken true)) "o" (some divByZeroExpr)) 0
      (rootStore Int) =
      some (some (.error "división por cero"), rootStore Int) ∧
    evalLogicalOrOperator intFM (.integer 7) (.boolean false) =
      .integer 7 ∧
    evalLogicalAndOperator intFM .null (.boolean true) = .null ∧
    evalInfixExpression intFM "y" (some (.integer 1)) (some (.integer 2)) =
      some (.error "operador desconocido: ENTERO y ENTERO") :=
  ⟨(C1_logical_not_short_circuit intFM).2.2.1 4 zeroToken
      (some (.booleanLit zeroToken true)) (some divByZeroExpr) "o" 0
      (rootStore Int) (some (.boolean true)) (rootStore Int)
      (some (.error "división por cero")) (rootStore Int)
      (Or.inr rfl) rfl rfl rfl rfl,
   ((C1_logical_not_short_circuit intFM).2.2.2.1 (.integer 7)
      (.boolean false)).1 rfl,
   ((C1_logical_not_short_circuit intFM).2.2.2.1 .null
      (.boolean true)).2.2.1 rfl,
   ((C1_logical_not_short_circuit intFM).2.2.2.2 1 2).1⟩

/-- the counterexample to C1 as claimed: `verdad o (1/0)` evaluates its
right operand and returns its error, not `verdad`; `falso y (1/0)`
likewise. -/
theorem C1_short_circuit_counterexample :
    EvalExpr intFM 9 orDivExpr 0 (rootStore Int) =
      some (some (.error "división por cero"), rootStore Int) ∧
    EvalExpr intFM 9 orDivExpr 0 (rootStore Int) ≠
      some (some (.boolean true), rootStore Int) ∧
    EvalExpr intFM 9 andDivExpr 0 (rootStore Int) =
      some (some (.error "división por cero"), rootStore Int) ∧
    EvalExpr intFM 9 andDivExpr 0 (rootStore Int) ≠
      some (some (.boolean false), rootStore Int) := by
  have hor : EvalExpr intFM 9 orDivExpr 0 (rootStore Int) =
      some (some (.error "división por cero"), rootStore Int) := rfl
  have hand : EvalExpr intFM 9 andDivExpr 0 (rootStore Int) =
      some (some (.error "división por cero"), rootStore Int) := rfl
  refine ⟨hor, ?_, hand, ?_⟩
  · rw [hor]; simp
  · rw [hand]; simp

/-- **C2.** (corrected) Only the `guarda name = expr` form produces a
`LetStatement`: the walrus token `:=` has no registered parse function,
so `name := expr` parses with the error "no hay función de análisis de
prefijo para :=" and yields three expression statements (the name, a
nil expression for `:=`, and the value) — not a `LetStatement`. -/
theorem C2_walrus_unsupported (n : String) :
    ParseProgram intFM 30
      [⟨VAR, "guarda", 1, 1⟩, ⟨IDENT, n, 1, 8⟩, ⟨ASSIGN, "=", 1, 10⟩,
       ⟨NUM, "5", 1, 12⟩, ⟨EOF, "", 1, 13⟩] =
      some (⟨[.letS ⟨⟨VAR, "guarda", 1, 1⟩, ⟨⟨IDENT, n, 1, 8⟩, n⟩,
        some (.integerLit ⟨NUM, "5", 1, 12⟩ 5)⟩]⟩,
        ⟨[], ⟨EOF, "", 1, 13⟩, eofFallback, []⟩) ∧
    ParseProgram intFM 30
      [⟨IDENT, n, 1, 1⟩, ⟨DECLARE, ":=", 1, 3⟩, ⟨NUM, "5", 1, 6⟩,
       ⟨EOF, "", 1, 7⟩] =
      some (⟨[.exprS ⟨IDENT, n, 1, 1⟩ (some (.ident ⟨IDENT, n, 1, 1⟩ n)),
        .exprS ⟨DECLARE, ":=", 1, 3⟩ none,
        .exprS ⟨NUM, "5", 1, 6⟩
          (some (.integerLit ⟨NUM, "5", 1, 6⟩ 5))]⟩,
        ⟨[], ⟨EOF, "", 1, 7⟩, eofFallback,
         ["línea " ++ toString (1 : Nat) ++ ", columna " ++
          toString (3 : Nat) ++
          ": no hay función de análisis de prefijo para " ++ ":="]⟩) ∧
    ("línea " ++ toString (1 : Nat) ++ ", columna " ++ toString (3 : Nat) ++
     ": no hay función de análisis de prefijo para " ++ ":=") =
    "línea 1, columna 3: no hay función de análisis de prefijo para :=" :=
  ⟨rfl, rfl, rfl⟩

theorem C2_walrus_unsupported_witness :
    ("línea " ++ toString (1 : Nat) ++ ", columna " ++ toString (3 : Nat) ++
     ": no hay función de análisis de prefijo para " ++ ":=") =
    "línea 1, columna 3: no hay función de análisis de prefijo para :=" :=
  (C2_walrus_unsupported "x").2.2

/-- the counterexample to C2 as claimed: `x := 5` does not parse as a
`LetStatement` — it produces a parse error and three expression
statements. -/
theorem C2_walrus_counterexample :
    ParseProgram intFM 30
      [⟨IDENT, "x", 1, 1⟩, ⟨DECLARE, ":=", 1, 3⟩, ⟨NUM, "5", 1, 6⟩,
       ⟨EOF, "", 1, 7⟩] =
      some (⟨[.exprS ⟨IDENT, "x", 1, 1⟩
          (some (.ident ⟨IDENT, "x", 1, 1⟩ "x")),
        .exprS ⟨DECLARE, ":=", 1, 3⟩ none,
        .exprS ⟨NUM, "5", 1, 6⟩
          (some (.integerLit ⟨NUM, "5", 1, 6⟩ 5))]⟩,
        ⟨[], ⟨EOF, "", 1, 7⟩, eofFallback,
         ["línea " ++ toString (1 : Nat) ++ ", columna " ++
          toString (3 : Nat) ++
          ": no hay función de análisis de prefijo para " ++ ":="]⟩) :=
  rfl

/-- **C5.** (corrected) Arithmetic on two Integer operands yields an
Integer for `+`, `-`, `*`, `^`, and for `/`, `%` with a nonzero right
operand — but `1 / 0` yields an error, refuting the unconditional
"Integer op Integer yields an Integer". When exactly one operand is a
Float, the Integer operand is promoted via `FM.ofInt` and the result is
computed by `evalFloatInfixExpression`. An arithmetic operation on a
mixed pair that is not Integer/Float yields the
"tipo de operando no válido" error. -/
theorem C5_arithmetic_promotion {F : Type} (FM : FloatModel F) :
    (evalInfixExpression FM "/" (some (.integer 1)) (some (.integer 0)) =
       some (.error "división por cero") ∧
     ∀ n : Int,
       evalInfixExpression FM "/" (some (.integer 1))
         (some (.integer 0)) ≠ some (.integer n)) ∧
    (∀ (op : String) (a b : Int),
       op = "+" ∨ op = "-" ∨ op = "*" ∨ op = "^" →
       ∃ n : Int, evalInfixExpression FM op (some (.integer a))
         (some (.integer b)) = some (.integer n)) ∧
    (∀ (op : String) (a b : Int),
       op = "/" ∨ op = "%" → b ≠ 0 →
       ∃ n : Int, evalInfixExpression FM op (some (.integer a))
         (some (.integer b)) = some (.integer n)) ∧
    (∀ (op : String) (a : Int) (g : F),
       evalInfixExpression FM op (some (.integer a)) (some (.float g)) =
         evalFloatInfixExpression FM op (FM.ofInt a) g ∧
       evalInfixExpression FM op (some (.float g)) (some (.integer a)) =
         evalFloatInfixExpression FM op g (FM.ofInt a)) ∧
    (∀ (op : String) (l r : Obj F),
       op = "+" ∨ op = "-" ∨ op = "*" ∨ op = "/" ∨ op = "%" ∨ op = "^" →
       typeOf l ≠ typeOf r →
       (typeOf l ≠ INTEGER_OBJ ∧ typeOf l ≠ FLOAT_OBJ) ∨
       (typeOf r ≠ INTEGER_OBJ ∧ typeOf r ≠ FLOAT_OBJ) →
       evalInfixExpression FM op (some l) (some r) =
         some (.error ("tipo de operando no válido: " ++ typeOf l ++ " " ++
           op ++ " " ++ typeOf r))) := by
  refine ⟨⟨rfl, ?_⟩, ?_, ?_, ?_, ?_⟩
  · intro n hc
    simp [evalInfixExpression, evalIntegerInfixExpression] at hc
  · intro op a b hop
    rcases hop with rfl | rfl | rfl | rfl
    · exact ⟨wrap64 (a + b), rfl⟩
    · exact ⟨wrap64 (a - b), rfl⟩
    · exact ⟨wrap64 (a * b), rfl⟩
    · exact ⟨powLoopInt a b.toNat, rfl⟩
  · intro op a b hop hb
    rcases hop with rfl | rfl
    · exact ⟨wrap64 (Int.tdiv a b),
        by simp [evalInfixExpression, evalIntegerInfixExpression, hb]⟩
    · exact ⟨Int.tmod a b,
        by simp [evalInfixExpression, evalIntegerInfixExpression, hb]⟩
  · intro op a g
    exact ⟨rfl, rfl⟩
  · intro op l r hop h1 hnum
    have hne1 : op ≠ "==" := by
      rcases hop with rfl | rfl | rfl | rfl | rfl | rfl <;> decide
    have hne2 : op ≠ "!=" := by
      rcases hop with rfl | rfl | rfl | rfl | rfl | rfl <;> decide
    have hne3 : op ≠ "y" := by
      rcases hop with rfl | rfl | rfl | rfl | rfl | rfl <;> decide
    have hne4 : op ≠ "o" := by
      rcases hop with rfl | rfl | rfl | rfl | rfl | rfl <;> decide
    clear hop
    cases l <;> cases r <;>
      simp_all [evalInfixExpression, typeOf, INTEGER_OBJ, FLOAT_OBJ,
        BOOLEAN_OBJ, NULL_OBJ, RETURN_VALUE_OBJ, ERROR_OBJ, FUNCTION_OBJ,
        STRING_OBJ, BUILTIN_OBJ, ARRAY_OBJ, HASH_OBJ, CLASS_OBJ,
        INSTANCE_OBJ]

theorem C5_arithmetic_promotion_witness :
    (∃ n : Int, evalInfixExpression intFM "+" (some (.integer 2))
      (some (.integer 3)) = some (.integer n)) ∧
    (∃ n : Int, evalInfixExpression intFM "/" (some (.integer 7))
      (some (.integer 2)) = some (.integer n)) ∧
    evalInfixExpression intFM "+" (some (.string "a"))
      (some (.integer 1)) =
      some (.error "tipo de operando no válido: TEXTO + ENTERO") :=
  ⟨(C5_arithmetic_promotion intFM).2.1 "+" 2 3 (Or.inl rfl),
   (C5_arithmetic_promotion intFM).2.2.1 "/" 7 2 (Or.inl rfl)
     (by decide),
   (C5_arithmetic_promotion intFM).2.2.2.2 "+" (.string "a") (.integer 1)
     (Or.inl rfl) (by decide) (Or.inl ⟨by decide, by decide⟩)⟩

/-- the counterexample to C5 as claimed: the pure-Integer operation
`1 / 0` yields an error object, not an Integer. -/
theorem C5_promotion_counterexample :
    evalInfixExpression intFM "/" (some (.integer 1)) (some (.integer 0)) =
      some (.error "división por cero") ∧
    ∀ n : Int,
      evalInfixExpression intFM "/" (some (.integer 1))
        (some (.integer 0)) ≠ some (.integer n) := by
  refine ⟨rfl, ?_⟩
  intro n hc
  simp [evalInfixExpression, evalIntegerInfixExpression] at hc

/-- **C9.** Once `nuevo C(args)` has resolved a class with a `crear`
constructor and evaluated its arguments without error, the result is the
newly created instance no matter what the constructor body produced —
its result, error included, is discarded; only an error from the class
expression, a non-class callee, or an error while evaluating an
argument aborts the `nuevo` expression. -/
theorem C9_ctor_error_discarded {F : Type} (FM : FloatModel F) :
    (∀ (fuel : Nat) (cls : Option (Expr F)) (args : List (Option (Expr F)))
       (env : Nat) (s s1 : Store F) (c : ClassData F)
       (ctor : FunctionData F) (argv : List (GoVal F)) (s2 : Store F)
       (res : GoVal F) (s3 : Store F),
       EvalOpt FM fuel cls env s = some (some (.classObj c), s1) →
       getAssoc c.methods "crear" = some ctor →
       EvalExprList FM fuel args env (newInstanceSetup s1 env c).2 =
         some (argv, s2) →
       ¬(argv.length = 1 ∧ isError (argv.getD 0 none) = true) →
       EvalBlock FM fuel ctor.body
         (ctorEnvSetup s2 (newInstanceSetup s1 env c).1 ctor argv).1
         (ctorEnvSetup s2 (newInstanceSetup s1 env c).1 ctor argv).2 =
         some (res, s3) →
       EvalNewExpression FM (fuel + 1) cls args env s =
         some (some (.instanceObj (newInstanceSetup s1 env c).1), s3)) ∧
    (∀ (fuel : Nat) (cls : Option (Expr F)) (args : List (Option (Expr F)))
       (env : Nat) (s : Store F) (cv : GoVal F) (s1 : Store F),
       EvalOpt FM fuel cls env s = some (cv, s1) → isError cv = true →
       EvalNewExpression FM (fuel + 1) cls args env s = some (cv, s1)) ∧
    (∀ (fuel : Nat) (cls : Option (Expr F)) (args : List (Option (Expr F)))
       (env : Nat) (s : Store F) (o : Obj F) (s1 : Store F),
       EvalOpt FM fuel cls env s = some (some o, s1) →
       isError (some o) = false → typeOf o ≠ CLASS_OBJ →
       EvalNewExpression FM (fuel + 1) cls args env s =
         some (some (.error ("no es una clase: " ++ typeOf o)), s1)) ∧
    (∀ (fuel : Nat) (cls : Option (Expr F)) (args : List (Option (Expr F)))
       (env : Nat) (s s1 : Store F) (c : ClassData F)
       (ctor : FunctionData F) (argv : List (GoVal F)) (s2 : Store F),
       EvalOpt FM fuel cls env s = some (some (.classObj c), s1) →
       getAssoc c.methods "crear" = some ctor →
       EvalExprList FM fuel args env (newInstanceSetup s1 env c).2 =
         some (argv, s2) →
       argv.length = 1 → isError (argv.getD 0 none) = true →
       EvalNewExpression FM (fuel + 1) cls args env s =
         some (argv.getD 0 none, s2)) := by
  refine ⟨?_, ?_, ?_, ?_⟩
  · intro fuel cls args env s s1 c ctor argv s2 res s3 h1 h2 h3 h4 h5
    have he : ¬(isError (some (Obj.classObj c) : GoVal F) = true) :=
      fun hco => Bool.noConfusion hco
    simp only [EvalNewExpression]
    rw [h1]
    (try dsimp only)
    rw [if_neg he]
    (try dsimp only)
    rw [h2]
    (try dsimp only)
    rw [h3]
    (try dsimp only)
    rw [if_neg h4, h5]
  · intro fuel cls args env s cv s1 h1 herr
    simp only [EvalNewExpression]
    rw [h1]
    (try dsimp only)
    rw [herr, if_pos rfl]
  · intro fuel cls args env s o s1 h1 hno hne
    cases o <;> first
      | exact absurd rfl hne
      | exact Bool.noConfusion hno
      | (simp only [EvalNewExpression]
         rw [h1]
         rfl)
  · intro fuel cls args env s s1 c ctor argv s2 h1 h2 h3 hlen herr
    have he : ¬(isError (some (Obj.classObj c) : GoVal F) = true) :=
      fun hco => Bool.noConfusion hco
    simp only [EvalNewExpression]
    rw [h1]
    (try dsimp only)
    rw [if_neg he]
    (try dsimp only)
    rw [h2]
    (try dsimp only)
    rw [h3]
    (try dsimp only)
    rw [if_pos ⟨hlen, herr⟩]

theorem C9_ctor_error_discarded_witness :
    EvalBlock intFM 8 crearCtor.body
      (ctorEnvSetup (newInstanceSetup demoStore 0 demoClass).2 0
        crearCtor []).1
      (ctorEnvSetup (newInstanceSetup demoStore 0 demoClass).2 0
        crearCtor []).2 =
      some (some (.error "división por cero"),
        (ctorEnvSetup (newInstanceSetup demoStore 0 demoClass).2 0
          crearCtor []).2) ∧
    EvalNewExpression intFM 9 (some (.ident zeroToken "C")) [] 0
      demoStore =
      some (some (.instanceObj (newInstanceSetup demoStore 0 demoClass).1),
        (ctorEnvSetup (newInstanceSetup demoStore 0 demoClass).2 0
          crearCtor []).2) ∧
    EvalNewExpression intFM 9 (some (.integerLit zeroToken 4)) [] 0
      demoStore =
      some (some (.error "no es una clase: ENTERO"), demoStore) :=
  ⟨rfl,
   (C9_ctor_error_discarded intFM).1 8 (some (.ident zeroToken "C")) [] 0
     demoStore demoStore demoClass crearCtor []
     (newInstanceSetup demoStore 0 demoClass).2
     (some (.error "división por cero"))
     (ctorEnvSetup (newInstanceSetup demoStore 0 demoClass).2 0
       crearCtor []).2
     rfl rfl rfl (by decide) rfl,
   (C9_ctor_error_discarded intFM).2.2.1 8 (some (.integerLit zeroToken 4))
     [] 0 demoStore (.integer 4) demoStore rfl rfl (by decide)⟩

/-- **C4.** `esto` is installed in the instance's environment at
construction; `obj.m` builds a bound function whose environment is a
fresh scope with `esto` bound to the instance, enclosing the instance's
environment; inside the call (parameters permitting, since a parameter
named `esto` would shadow) `esto` resolves to the instance through the
scope chain; and a function application only ever appends fresh scopes,
so every lookup the caller can make is unchanged after the call
returns. -/
theorem C4_esto_binding {F : Type} (FM : FloatModel F) :
    (∀ (s : Store F) (env : Nat) (c : ClassData F),
       (newInstanceSetup s env c).2.instances.get? s.instances.length =
         some ⟨c, c.properties, s.scopes.length⟩ ∧
       envGet (newInstanceSetup s env c).2 s.scopes.length "esto" =
         some (some (.instanceObj s.instances.length))) ∧
    (∀ (s : Store F) (ih : Nat) (inst : InstanceData F) (p : String)
       (method : FunctionData F),
       s.instances.get? ih = some inst →
       getAssoc inst.properties p = none →
       getAssoc inst.cls.methods p = some method →
       evalDotExpression s (some (.instanceObj ih)) p =
         some (some (.function ⟨s.nextId, method.parameters, method.body,
           s.scopes.length, method.name⟩),
           { s with nextId := s.nextId + 1, scopes := s.scopes ++
             [⟨[("esto", some (.instanceObj ih))], some inst.env⟩] })) ∧
    (∀ (s : Store F) (f : FunctionData F) (args : List (GoVal F))
       (v : GoVal F) (outerX : Option Nat),
       f.env < s.scopes.length →
       s.scopes.get? f.env = some ⟨[("esto", v)], outerX⟩ →
       (∀ q ∈ f.parameters, q.value ≠ "esto") →
       envGet (extendFunctionEnv s f args).2
         (extendFunctionEnv s f args).1 "esto" = some v) ∧
    (∀ (fuel : Nat) (fn : GoVal F) (args : List (GoVal F)) (s : Store F)
       (r : GoVal F) (s' : Store F) (h : Nat) (name : String),
       WfStore s → h < s.scopes.length →
       applyFunction FM fuel fn args s = some (r, s') →
       envGet s' h name = envGet s h name) := by
  refine ⟨?_, ?_, ?_, ?_⟩
  · intro s env c
    obtain ⟨hi, hsc, hins, hnid⟩ := newInstanceSetup_spec s env c
    constructor
    · rw [hins]
      exact List.get?_concat_length _ _
    · simp only [envGet, envGetAux]
      rw [hsc, List.get?_concat_length]
      (try dsimp only)
      rfl
  · intro s ih inst p method hinst hprop hmeth
    simp only [evalDotExpression]
    rw [hinst]
    (try dsimp only)
    rw [hprop]
    (try dsimp only)
    rw [hmeth]
  · intro s f args v outerX hlt hscope hps
    obtain ⟨k, hk⟩ : ∃ k, s.scopes.length = k + 1 :=
      ⟨s.scopes.length - 1, by omega⟩
    simp only [extendFunctionEnv, envGet, envGetAux]
    rw [List.get?_concat_length]
    (try dsimp only)
    rw [paramBindings_getAssoc args f.parameters 0 [] "esto" hps]
    (try dsimp only)
    rw [hk]
    simp only [envGetAux]
    rw [List.get?_append hlt, hscope]
    (try dsimp only)
    rfl
  · intro fuel fn args s r s' h name wf hh happ
    have hpres := (extAll FM fuel).eapply fn args s r s' happ
    exact envGet_stable hpres.2.2.1 wf h name hh

theorem C4_esto_binding_witness :
    ((newInstanceSetup demoStore 0 demoClass).2.instances.get?
        demoStore.instances.length =
        some ⟨demoClass, demoClass.properties, demoStore.scopes.length⟩ ∧
      envGet (newInstanceSetup demoStore 0 demoClass).2
        demoStore.scopes.length "esto" =
        some (some (.instanceObj demoStore.instances.length))) ∧
    evalDotExpression instStore (some (.instanceObj 0)) "m" =
      some (some (.function mBound), dotStore) ∧
    envGet (extendFunctionEnv dotStore mBound []).2
      (extendFunctionEnv dotStore mBound []).1 "esto" =
      some (some (.instanceObj 0)) ∧
    envGet (extendFunctionEnv dotStore mBound []).2 0 "esto" =
      envGet dotStore 0 "esto" :=
  ⟨(C4_esto_binding intFM).1 demoStore 0 demoClass,
   (C4_esto_binding intFM).2.1 instStore 0 ⟨methClass, [], 1⟩ "m" mMethod
     rfl rfl rfl,
   (C4_esto_binding intFM).2.2.1 dotStore mBound []
     (some (.instanceObj 0)) (some 1) (by decide) rfl
     (fun q hq => absurd hq (List.not_mem_nil q)),
   (C4_esto_binding intFM).2.2.2 5 (some (.function mBound)) [] dotStore
     none (extendFunctionEnv dotStore mBound []).2 0 "esto"
     (by
       intro h sc hsc o ho
       match h with
       | 0 =>
         simp [dotStore] at hsc
         subst hsc
         simp at ho
       | 1 =>
         simp [dotStore] at hsc
         subst hsc
         simp at ho
         omega
       | 2 =>
         simp [dotStore] at hsc
         subst hsc
         simp at ho
         omega
       | n + 3 =>
         simp [dotStore] at hsc)
     (by decide) rfl⟩

end Gaby
